import Mathlib

/-! The cheqd DID resolver: resolution and dereferencing engine.

Shallow embedding of `services/request_service.go` and `types/did_doc.go`.

* A Go result pair `(value, error)` is kept as a pair: `Out.val` and `Out.err`
  (`none` is the nil error), so that the zero value returned next to a hard
  error is visible.
* Calls made to the collaborators (ledger gateway, `Resolve`, fragment lookup)
  are recorded in `Out.calls`, in program order.
* Go slices are lists; a nil slice and an empty slice are both `[]`.
* The identifier decomposer, the validity predicates, the ledger and the
  marshallers are collaborators outside the sources: they are fields of `Env`
  and `LedgerServiceI`, and every theorem quantifies over them.
-/

namespace CheqdResolver

/-! ## Data model -/

/-- Go `error` values, identified by their message. -/
abbrev GoError := String

/-- The string type `types.ContentType`. -/
abbrev ContentType := String

/-- The string type `types.ErrorType`. -/
abbrev ErrorType := String

/-- The struct `types.VerificationMethod` of `types/did_doc.go`; the map
`PublicKeyJwk` is an association list, and the field `Type` is written
`Type_`. -/
structure VerificationMethod where
  Context : List String := []
  Id : String := ""
  Type_ : String := ""
  Controller : String := ""
  PublicKeyJwk : List (String × String) := []
  PublicKeyMultibase : String := ""
  deriving DecidableEq, Repr

/-- The struct `types.Service` of `types/did_doc.go`. -/
structure Service where
  Context : List String := []
  Id : String := ""
  Type_ : String := ""
  ServiceEndpoint : List String := []
  deriving DecidableEq, Repr

/-- The struct `types.DidDoc` of `types/did_doc.go`. -/
structure DidDoc where
  Context : List String := []
  Id : String := ""
  Controller : List String := []
  VerificationMethod : List VerificationMethod := []
  Authentication : List String := []
  AssertionMethod : List String := []
  CapabilityInvocation : List String := []
  CapabilityDelegation : List String := []
  KeyAgreement : List String := []
  Service : List Service := []
  AlsoKnownAs : List String := []
  deriving DecidableEq, Repr

/-- Ledger-native document metadata (a type of the ledger library; only its
zero value and its identity matter to the engine). -/
structure Metadata where
  Created : String := ""
  Updated : String := ""
  Deactivated : Bool := false
  VersionId : String := ""
  Resources : List String := []
  deriving DecidableEq, Repr

/-- Ledger-native resource (a type of the ledger library): opaque content plus
its header fields. -/
structure Resource where
  CollectionId : String := ""
  Id : String := ""
  Name : String := ""
  ResourceType : String := ""
  MediaType : String := ""
  Created : String := ""
  Checksum : List UInt8 := []
  PreviousVersionId : String := ""
  NextVersionId : String := ""
  Data : List UInt8 := []
  deriving DecidableEq, Repr

/-- The struct `types.DidProperties`. -/
structure DidProperties where
  DidString : String := ""
  MethodSpecificId : String := ""
  Method : String := ""
  deriving DecidableEq, Repr

/-- The struct `types.ResolutionMetadata`. -/
structure ResolutionMetadata where
  ContentType : ContentType := ""
  ResolutionError : ErrorType := ""
  Retrieved : String := ""
  DidProperties : DidProperties := {}
  deriving DecidableEq, Repr

/-- The type `types.DereferencingMetadata`: the Go code converts between the
two with a plain type conversion, so they are the same record. -/
abbrev DereferencingMetadata := ResolutionMetadata

/-- The struct `types.ResolutionOption`. -/
structure ResolutionOption where
  Accept : ContentType := ""
  deriving DecidableEq, Repr

/-- The type `types.DereferencingOption`, converted to and from
`types.ResolutionOption` by a plain type conversion. -/
abbrev DereferencingOption := ResolutionOption

/-- The struct `types.DidResolution`. -/
structure DidResolution where
  Did : DidDoc := {}
  Metadata : Metadata := {}
  ResolutionMetadata : ResolutionMetadata := {}
  deriving DecidableEq, Repr

/-- The struct `types.DidDereferencing`; `ContentStream` is a
`json.RawMessage`, `none` being the nil slice. -/
structure DidDereferencing where
  ContentStream : Option String := none
  Metadata : Metadata := {}
  DereferencingMetadata : DereferencingMetadata := {}
  deriving DecidableEq, Repr

/-- The values that flow through the interface `protoiface.MessageV1` in
`dereferenceSecondary` and `dereferencePrimary`. -/
inductive Content where
  | didDoc (d : DidDoc)
  | verificationMethod (vm : VerificationMethod)
  | service (s : Service)
  | resource (r : Resource)
  deriving DecidableEq, Repr

/-! ## Constants of package `types` -/

/-- The content-type constants and the schema URI of package `types`. Their
declarations are not among the sources, so they are parameters. -/
structure ContentTypes where
  DIDJSON : ContentType
  DIDJSONLD : ContentType
  JSONLD : ContentType
  HTML : ContentType
  DIDSchemaJSONLD : String
  deriving DecidableEq, Repr

/-- Modelled from the spec: the constant `types.ResolutionInvalidDID`, whose
declaration is missing; the error taxonomy names it `invalidDid`. -/
def ResolutionInvalidDID : ErrorType := "invalidDid"

/-- Modelled from the spec: the constant `types.ResolutionNotFound`, whose
declaration is missing; the error taxonomy names it `notFound`. -/
def ResolutionNotFound : ErrorType := "notFound"

/-- Modelled from the spec: the constant `types.ResolutionMethodNotSupported`,
whose declaration is missing; the error taxonomy names it
`methodNotSupported`. -/
def ResolutionMethodNotSupported : ErrorType := "methodNotSupported"

/-- Modelled from the spec: the constant `types.DereferencingInvalidDIDUrl`,
whose declaration is missing; the error taxonomy names it `invalidDidUrl`. -/
def DereferencingInvalidDIDUrl : ErrorType := "invalidDidUrl"

/-- Modelled from the spec: the constant `types.DereferencingNotFound`, whose
declaration is missing; the error taxonomy names it `notFound`. -/
def DereferencingNotFound : ErrorType := "notFound"

/-- Modelled from the spec: the constant `types.DereferencingNotSupported`,
whose declaration is missing; the error taxonomy names it `notSupported`. -/
def DereferencingNotSupported : ErrorType := "notSupported"

/-! ## Collaborators -/

/-- Result of `cheqdUtils.TrySplitDID`: `(method, namespace, id, err)`. -/
structure SplitDID where
  method : String := ""
  namespace_ : String := ""
  id : String := ""
  err : Option GoError := none
  deriving DecidableEq, Repr

/-- Result of `cheqdUtils.TrySplitDIDUrl`:
`(did, path, query, fragmentId, err)`. -/
structure SplitDIDUrl where
  did : String := ""
  path : String := ""
  query : String := ""
  fragmentId : String := ""
  err : Option GoError := none
  deriving DecidableEq, Repr

/-- Result of `LedgerServiceI.QueryDIDDoc`:
`(didDoc, metadata, isFound, err)`. -/
structure DidDocQuery where
  didDoc : DidDoc := {}
  metadata : Metadata := {}
  isFound : Bool := false
  err : Option GoError := none
  deriving DecidableEq, Repr

/-- Result of `LedgerServiceI.QueryResource`: `(resource, isFound, err)`. -/
structure ResourceQuery where
  resource : Resource := {}
  isFound : Bool := false
  err : Option GoError := none
  deriving DecidableEq, Repr

/-- The interface `LedgerServiceI`, as far as `RequestService` calls it: one
value of this type is one ledger state. -/
structure LedgerServiceI where
  GetNamespaces : List String
  QueryDIDDoc : String → DidDocQuery
  QueryResource : String → String → ResourceQuery

/-- The struct `RequestService`; its `didDocService` field is the empty struct
`DIDDocService`, whose methods are in `Env`. -/
structure RequestService where
  didMethod : String
  ledgerService : LedgerServiceI

/-- The library and helper functions the engine calls and whose code is not
among the sources: the identifier decomposer and validity predicates of
`cheqdUtils`, `utils.GetResourceId`, the marshallers of `DIDDocService`,
`json.Marshal` on a metadata record, the validation and compaction that
`json.Marshal` applies to a `json.RawMessage`, and the clock. -/
structure Env where
  K : ContentTypes
  TrySplitDID : String → SplitDID
  TrySplitDIDUrl : String → SplitDIDUrl
  IsValidDID : String → String → List String → Bool
  IsValidDIDUrl : String → String → List String → Bool
  GetResourceId : String → String
  now : String
  jsonMarshalMetadata : ResolutionMetadata → String × Option GoError
  MarshallDID : DidDoc → String × Option GoError
  MarshallProto : Metadata → String × Option GoError
  MarshallContentStream : Content → ContentType → String × Option GoError
  jsonCompact : String → Except GoError String

/-- The calls to collaborators that the claims speak about. -/
inductive Call where
  | GetNamespaces
  | QueryDIDDoc (did : String)
  | QueryResource (did resourceId : String)
  | Resolve (did : String)
  | GetDIDFragment (fragmentId : String)
  deriving DecidableEq, Repr

/-- A Go result pair `(val, err)` together with the calls made to produce
it. -/
structure Out (α : Type) where
  val : α
  err : Option GoError
  calls : List Call
  deriving DecidableEq, Repr

/-! ## Helpers of package `types` and `strings` -/

/-- The search loop of `strings.Contains` on the characters of the two
strings. -/
def containsChars : List Char → List Char → Bool
  | [], sub => sub.isEmpty
  | c :: cs, sub => sub.isPrefixOf (c :: cs) || containsChars cs sub

/-- Go `strings.Contains(s, substr)`. -/
def stringsContains (s substr : String) : Bool :=
  containsChars s.toList substr.toList

/-- Modelled from the spec: the constructor `types.NewResolutionMetadata`,
missing from the sources. The record carries the content type and the error
code it is given, the retrieval time, and `didProperties` derived from the
decomposed identifier when parsing succeeded, empty otherwise. -/
def NewResolutionMetadata (E : Env) (didUrl : String) (contentType : ContentType)
    (resolutionError : ErrorType) : ResolutionMetadata :=
  let u := E.TrySplitDIDUrl didUrl
  let d := E.TrySplitDID u.did
  { ContentType := contentType
    ResolutionError := resolutionError
    Retrieved := E.now
    DidProperties :=
      if u.err = none ∧ d.err = none then
        { DidString := u.did, MethodSpecificId := d.id, Method := d.method }
      else {} }

/-- Modelled from the spec: the constructor `types.NewDereferencingMetadata`,
missing from the sources; dereferencing metadata is the same record as
resolution metadata. -/
def NewDereferencingMetadata (E : Env) (didUrl : String) (contentType : ContentType)
    (dereferencingError : ErrorType) : DereferencingMetadata :=
  NewResolutionMetadata E didUrl contentType dereferencingError

/-- The first condition of the content-type shaping in `Resolve`
(request_service.go line 134): the JSON-LD family. -/
def isJSONLDFamily (K : ContentTypes) (ct : ContentType) : Bool :=
  ct == K.DIDJSONLD || stringsContains ct K.JSONLD

/-- The second condition of the content-type shaping in `Resolve`
(request_service.go line 136): plain JSON or HTML. -/
def isPlainJSONOrHTML (K : ContentTypes) (ct : ContentType) : Bool :=
  ct == K.DIDJSON || ct == K.HTML

/-! ## `RequestService.Resolve` -/

/-- The method `RequestService.Resolve` (request_service.go lines 110-143). -/
def Resolve (E : Env) (rs : RequestService) (did : String)
    (resolutionOptions : ResolutionOption) : Out DidResolution :=
  let didResolutionMetadata := NewResolutionMetadata E did resolutionOptions.Accept ""
  if (E.TrySplitDID did).method ≠ rs.didMethod then
    { val := { ResolutionMetadata :=
                { didResolutionMetadata with ResolutionError := ResolutionMethodNotSupported } }
      err := none
      calls := [] }
  else if !E.IsValidDID did "" rs.ledgerService.GetNamespaces then
    { val := { ResolutionMetadata :=
                { didResolutionMetadata with ResolutionError := ResolutionInvalidDID } }
      err := none
      calls := [Call.GetNamespaces] }
  else
    let q := rs.ledgerService.QueryDIDDoc did
    let calls := [Call.GetNamespaces, Call.QueryDIDDoc did]
    match q.err with
    | some err => { val := {}, err := some err, calls := calls }
    | none =>
      if !q.isFound then
        { val := { ResolutionMetadata :=
                    { didResolutionMetadata with ResolutionError := ResolutionNotFound } }
          err := none
          calls := calls }
      else if didResolutionMetadata.ContentType == E.K.DIDJSONLD
          || stringsContains didResolutionMetadata.ContentType E.K.JSONLD then
        { val := { Did := { q.didDoc with Context := q.didDoc.Context ++ [E.K.DIDSchemaJSONLD] }
                   Metadata := q.metadata
                   ResolutionMetadata := didResolutionMetadata }
          err := none
          calls := calls }
      else if didResolutionMetadata.ContentType == E.K.DIDJSON
          || didResolutionMetadata.ContentType == E.K.HTML then
        { val := { Did := { q.didDoc with Context := [] }
                   Metadata := q.metadata
                   ResolutionMetadata := didResolutionMetadata }
          err := none
          calls := calls }
      else
        { val := {}
          err := some ("content type " ++ didResolutionMetadata.ContentType ++ " is not supported")
          calls := calls }

/-! ## `RequestService.Dereference` and its two flows -/

/-- Modelled from the spec: the method `DIDDocService.GetDIDFragment`, missing
from the sources. It scans the verification methods and then the services of
the document for an `id` whose fragment component, as given by the identifier
decomposer, equals `fragmentId`; the first match in document order wins, and
no match gives nil (`none`). -/
def GetDIDFragment (E : Env) (fragmentId : String) (didDoc : DidDoc) : Option Content :=
  match didDoc.VerificationMethod.find?
      (fun vm => (E.TrySplitDIDUrl vm.Id).fragmentId == fragmentId) with
  | some vm => some (Content.verificationMethod vm)
  | none =>
    match didDoc.Service.find?
        (fun sv => (E.TrySplitDIDUrl sv.Id).fragmentId == fragmentId) with
    | some sv => some (Content.service sv)
    | none => none

/-- The method `RequestService.dereferencePrimary`
(request_service.go lines 175-199). -/
def dereferencePrimary (E : Env) (rs : RequestService) (path did didUrl : String)
    (dereferenceOptions : DereferencingOption) : Out DidDereferencing :=
  let resourceId := E.GetResourceId path
  if resourceId = "" then
    { val := { DereferencingMetadata :=
                NewDereferencingMetadata E didUrl dereferenceOptions.Accept
                  DereferencingNotSupported }
      err := none
      calls := [] }
  else
    let q := rs.ledgerService.QueryResource did resourceId
    let calls := [Call.QueryResource did resourceId]
    match q.err with
    | some err => { val := {}, err := some err, calls := calls }
    | none =>
      if !q.isFound then
        { val := { DereferencingMetadata :=
                    NewDereferencingMetadata E didUrl dereferenceOptions.Accept
                      DereferencingNotFound }
          err := none
          calls := calls }
      else
        let m := E.MarshallContentStream (Content.resource q.resource) dereferenceOptions.Accept
        match m.2 with
        | some err => { val := {}, err := some err, calls := calls }
        | none =>
          { val := { ContentStream := some m.1
                     DereferencingMetadata :=
                       NewDereferencingMetadata E did dereferenceOptions.Accept "" }
            err := none
            calls := calls }

/-- The method `RequestService.dereferenceSecondary`
(request_service.go lines 201-230). -/
def dereferenceSecondary (E : Env) (rs : RequestService) (did fragmentId didUrl : String)
    (dereferenceOptions : DereferencingOption) : Out DidDereferencing :=
  let didResolution := Resolve E rs did dereferenceOptions
  let calls := Call.Resolve did :: didResolution.calls
  match didResolution.err with
  | some err => { val := {}, err := some err, calls := calls }
  | none =>
    let dereferencingMetadata : DereferencingMetadata := didResolution.val.ResolutionMetadata
    if dereferencingMetadata.ResolutionError ≠ "" then
      { val := { DereferencingMetadata := dereferencingMetadata }, err := none, calls := calls }
    else
      let protoContent : Option Content :=
        if fragmentId ≠ "" then GetDIDFragment E fragmentId didResolution.val.Did
        else some (Content.didDoc didResolution.val.Did)
      let calls := calls ++ (if fragmentId ≠ "" then [Call.GetDIDFragment fragmentId] else [])
      match protoContent with
      | none =>
        { val := { DereferencingMetadata :=
                    NewDereferencingMetadata E didUrl dereferenceOptions.Accept
                      DereferencingNotFound }
          err := none
          calls := calls }
      | some content =>
        let m := E.MarshallContentStream content dereferenceOptions.Accept
        match m.2 with
        | some err => { val := {}, err := some err, calls := calls }
        | none =>
          { val := { ContentStream := some m.1
                     Metadata := didResolution.val.Metadata
                     DereferencingMetadata := dereferencingMetadata }
            err := none
            calls := calls }

/-- The method `RequestService.Dereference`
(request_service.go lines 146-173). -/
def Dereference (E : Env) (rs : RequestService) (didUrl : String)
    (dereferenceOptions : DereferencingOption) : Out DidDereferencing :=
  let u := E.TrySplitDIDUrl didUrl
  if u.err ≠ none ∨ E.IsValidDIDUrl didUrl "" [] = false then
    { val := { DereferencingMetadata :=
                NewDereferencingMetadata E didUrl dereferenceOptions.Accept
                  DereferencingInvalidDIDUrl }
      err := none
      calls := [] }
  else if u.query ≠ "" then
    { val := { DereferencingMetadata :=
                NewDereferencingMetadata E didUrl dereferenceOptions.Accept
                  DereferencingNotSupported }
      err := none
      calls := [] }
  else
    let r :=
      if u.path ≠ "" then dereferencePrimary E rs u.path u.did didUrl dereferenceOptions
      else dereferenceSecondary E rs u.did u.fragmentId didUrl dereferenceOptions
    match r.err with
    | some err => { val := {}, err := some err, calls := r.calls }
    | none => { val := r.val, err := none, calls := r.calls }

/-! ## The result envelopes -/

/-- The method `MarshalJSON` of `json.RawMessage`: a nil message is `null`,
any other message is itself. -/
def RawMessage.MarshalJSON : Option String → String
  | none => "null"
  | some m => m

/-- The part of `json.Marshal` that writes the fields of a struct whose fields
are all `json.RawMessage`: in declaration order, each message goes through
`MarshalJSON` and is validated and compacted; the first failure aborts. The
result pairs each JSON key with the text written for it. -/
def marshalRawFields (E : Env) :
    List (String × Option String) → Except GoError (List (String × String))
  | [] => Except.ok []
  | (key, raw) :: rest =>
    match E.jsonCompact (RawMessage.MarshalJSON raw) with
    | Except.error err => Except.error err
    | Except.ok v =>
      match marshalRawFields E rest with
      | Except.error err => Except.error err
      | Except.ok vs => Except.ok ((key, v) :: vs)

/-- The text of a JSON object with the given keys and member texts, as
`json.Marshal` writes it: no white space, members separated by commas. -/
def jsonObject (members : List (String × String)) : String :=
  "\x7b" ++ ",".intercalate (members.map (fun kv => "\"" ++ kv.1 ++ "\":" ++ kv.2)) ++ "\x7d"

/-- Go `json.Marshal` on a struct of `json.RawMessage` fields with the given
JSON keys. -/
def jsonMarshalRawStruct (E : Env) (fields : List (String × Option String)) :
    String × Option GoError :=
  match marshalRawFields E fields with
  | Except.error err => ("", some err)
  | Except.ok members => (jsonObject members, none)

/-- The function `createJsonResolution` (request_service.go lines 232-258). -/
def createJsonResolution (E : Env) (didDoc metadata resolutionMetadata : String) :
    String × Option GoError :=
  let didDoc := if didDoc = "" then "null" else didDoc
  let metadata := if metadata = "" then "[]" else metadata
  jsonMarshalRawStruct E
    [("didResolutionMetadata", some resolutionMetadata),
     ("didDocument", some didDoc),
     ("didDocumentMetadata", some metadata)]

/-- The function `createJsonDereferencing`
(request_service.go lines 260-286). -/
def createJsonDereferencing (E : Env) (contentStream : Option String)
    (metadata dereferencingMetadata : String) : String × Option GoError :=
  let contentStream := if contentStream = none then some "null" else contentStream
  let metadata := if metadata = "" then "[]" else metadata
  jsonMarshalRawStruct E
    [("contentStream", contentStream),
     ("contentMetadata", some metadata),
     ("dereferencingMetadata", some dereferencingMetadata)]

/-- The method `RequestService.prepareResolutionResult`
(request_service.go lines 56-82). -/
def prepareResolutionResult (E : Env) (rs : RequestService) (did : String)
    (resolutionOptions : ResolutionOption) : String × Option GoError :=
  let didResolution := Resolve E rs did resolutionOptions
  match didResolution.err with
  | some err => ("", some err)
  | none =>
    let resolutionMetadata := E.jsonMarshalMetadata didResolution.val.ResolutionMetadata
    match resolutionMetadata.2 with
    | some err => ("", some err)
    | none =>
      let didDoc := E.MarshallDID didResolution.val.Did
      match didDoc.2 with
      | some err => ("", some err)
      | none =>
        let metadata := E.MarshallProto didResolution.val.Metadata
        match metadata.2 with
        | some err => ("", some err)
        | none =>
          if didResolution.val.ResolutionMetadata.ResolutionError ≠ "" then
            createJsonResolution E "" "" resolutionMetadata.1
          else
            createJsonResolution E didDoc.1 metadata.1 resolutionMetadata.1

/-- The method `RequestService.prepareDereferencingResult`
(request_service.go lines 84-107). -/
def prepareDereferencingResult (E : Env) (rs : RequestService) (did : String)
    (dereferencingOptions : DereferencingOption) : String × Option GoError :=
  let didDereferencing := Dereference E rs did dereferencingOptions
  match didDereferencing.err with
  | some err => ("", some err)
  | none =>
    let dereferencingMetadata :=
      E.jsonMarshalMetadata didDereferencing.val.DereferencingMetadata
    match dereferencingMetadata.2 with
    | some err => ("", some err)
    | none =>
      if didDereferencing.val.DereferencingMetadata.ResolutionError ≠ "" then
        createJsonDereferencing E none "" dereferencingMetadata.1
      else
        let metadata := E.MarshallProto didDereferencing.val.Metadata
        match metadata.2 with
        | some err => ("", some err)
        | none =>
          createJsonDereferencing E didDereferencing.val.ContentStream metadata.1
            dereferencingMetadata.1

/-! ## Context helpers of `types/did_doc.go` -/

/-- Modelled from the spec: the helper `AddElemToSet` of package `types`,
missing from the sources. It inserts with set semantics: an element already
present is not inserted again, a new element goes to the end. -/
def AddElemToSet (set : List String) (newElement : String) : List String :=
  if newElement ∈ set then set else set ++ [newElement]

/-- The method `DidDoc.AddContext` (did_doc.go line 94). -/
def DidDoc.AddContext (e : DidDoc) (newProtocol : String) : DidDoc :=
  { e with Context := AddElemToSet e.Context newProtocol }

/-- The method `DidDoc.RemoveContext` (did_doc.go line 95). -/
def DidDoc.RemoveContext (e : DidDoc) : DidDoc :=
  { e with Context := [] }

/-! ## Construction of a document from ledger data (`types/did_doc.go`) -/

/-- The struct `types.VerificationMaterial` of `types/did_doc.go`. -/
structure VerificationMaterial where
  PublicKeyJwk : List (String × String) := []
  PublicKeyMultibase : String := ""
  deriving DecidableEq, Repr

/-- Ledger-native verification method `did.VerificationMethod` (a type of the
ledger library), with the fields `NewVerificationMethod` reads; the key
material is a JSON text. -/
structure ProtoVerificationMethod where
  Id : String := ""
  Type_ : String := ""
  Controller : String := ""
  VerificationMaterial : String := ""
  deriving DecidableEq, Repr

/-- Ledger-native service `did.Service` (a type of the ledger library), with
the fields `NewService` reads. -/
structure ProtoService where
  Id : String := ""
  Type_ : String := ""
  ServiceEndpoint : List String := []
  deriving DecidableEq, Repr

/-- Ledger-native document `did.DidDoc` (a type of the ledger library). Its
verification methods and services are slices of pointers: `none` is a nil
pointer. -/
structure ProtoDidDoc where
  Context : List String := []
  Id : String := ""
  Controller : List String := []
  VerificationMethod : List (Option ProtoVerificationMethod) := []
  Authentication : List String := []
  AssertionMethod : List String := []
  CapabilityInvocation : List String := []
  CapabilityDelegation : List String := []
  KeyAgreement : List String := []
  Service : List (Option ProtoService) := []
  AlsoKnownAs : List String := []
  deriving DecidableEq, Repr

/-- The behaviour of `json.Unmarshal(data, &verificationMaterial)` for a nil
`*VerificationMaterial`: an error, or a nil error with the pointer still nil
(`none`, for the JSON text `null`) or pointing to the decoded struct. The
decoder is library code and is a parameter. -/
abbrev MaterialDecoder := String → Except GoError (Option VerificationMaterial)

/-- The panic value of the Go runtime when a nil pointer is dereferenced. -/
def nilDereference : GoError :=
  "runtime error: invalid memory address or nil pointer dereference"

/-- The function `NewVerificationMethod` (did_doc.go lines 69-84). A panic is
`Except.error` with the panic value; the argument is a pointer, `none` being
nil. -/
def NewVerificationMethod (unmarshal : MaterialDecoder)
    (protoVerificationMethod : Option ProtoVerificationMethod) :
    Except GoError VerificationMethod :=
  match protoVerificationMethod with
  | none => Except.error nilDereference
  | some p =>
    match unmarshal p.VerificationMaterial with
    | Except.error err => Except.error err
    | Except.ok none => Except.error nilDereference
    | Except.ok (some verificationMaterial) =>
      Except.ok
        { Id := p.Id
          Type_ := p.Type_
          Controller := p.Controller
          PublicKeyJwk := verificationMaterial.PublicKeyJwk
          PublicKeyMultibase := verificationMaterial.PublicKeyMultibase }

/-- The function `NewService` (did_doc.go lines 86-92); the argument is a
pointer, `none` being nil. -/
def NewService (protoService : Option ProtoService) : Except GoError Service :=
  match protoService with
  | none => Except.error nilDereference
  | some p => Except.ok { Id := p.Id, Type_ := p.Type_, ServiceEndpoint := p.ServiceEndpoint }

/-- The first loop of `NewDidDoc` (did_doc.go lines 45-48): the verification
methods are converted and appended in order; the first panic ends the loop. -/
def newVerificationMethods (unmarshal : MaterialDecoder) :
    List (Option ProtoVerificationMethod) → Except GoError (List VerificationMethod)
  | [] => Except.ok []
  | vm :: rest =>
    match NewVerificationMethod unmarshal vm with
    | Except.error err => Except.error err
    | Except.ok v =>
      match newVerificationMethods unmarshal rest with
      | Except.error err => Except.error err
      | Except.ok vs => Except.ok (v :: vs)

/-- The second loop of `NewDidDoc` (did_doc.go lines 50-53). -/
def newServices : List (Option ProtoService) → Except GoError (List Service)
  | [] => Except.ok []
  | sv :: rest =>
    match NewService sv with
    | Except.error err => Except.error err
    | Except.ok v =>
      match newServices rest with
      | Except.error err => Except.error err
      | Except.ok vs => Except.ok (v :: vs)

/-- The function `NewDidDoc` (did_doc.go lines 44-67). -/
def NewDidDoc (unmarshal : MaterialDecoder) (protoDidDoc : ProtoDidDoc) :
    Except GoError DidDoc :=
  match newVerificationMethods unmarshal protoDidDoc.VerificationMethod with
  | Except.error err => Except.error err
  | Except.ok verificationMethods =>
    match newServices protoDidDoc.Service with
    | Except.error err => Except.error err
    | Except.ok services =>
      Except.ok
        { Id := protoDidDoc.Id
          Controller := protoDidDoc.Controller
          VerificationMethod := verificationMethods
          Authentication := protoDidDoc.Authentication
          AssertionMethod := protoDidDoc.AssertionMethod
          CapabilityInvocation := protoDidDoc.CapabilityInvocation
          CapabilityDelegation := protoDidDoc.CapabilityDelegation
          KeyAgreement := protoDidDoc.KeyAgreement
          Service := services
          AlsoKnownAs := protoDidDoc.AlsoKnownAs }

/-- A verification method has exactly one of its two key-material fields
populated. -/
def exactlyOneKeyMaterial (vm : VerificationMethod) : Prop :=
  (vm.PublicKeyJwk ≠ [] ∧ vm.PublicKeyMultibase = "") ∨
  (vm.PublicKeyJwk = [] ∧ vm.PublicKeyMultibase ≠ "")

instance (vm : VerificationMethod) : Decidable (exactlyOneKeyMaterial vm) := by
  unfold exactlyOneKeyMaterial
  exact inferInstance

/-! ## The fragment request service (`services/diddoc/diddoc_fragment.go`) -/

/-- The pieces that Go `strings.Split` cuts a text into at a one-character
separator: one more piece than there are separators, in order, each without
the separator. -/
def splitChars (sep : Char) : List Char → List (List Char)
  | [] => [[]]
  | c :: cs =>
    if c = sep then [] :: splitChars sep cs
    else
      match splitChars sep cs with
      | [] => [[c]]
      | piece :: pieces => (c :: piece) :: pieces

/-- Go `strings.Split(s, sep)` for a separator of one character. -/
def stringsSplit (s : String) (sep : Char) : List String :=
  (splitChars sep s.toList).map String.mk

/-- The struct `FragmentDIDDocRequestService` with the fields of the embedded
`services.BaseRequestService` that `diddoc_fragment.go` uses; the declaration
of the embedded struct is not among the sources. -/
structure FragmentDIDDocRequestService where
  Did : String := ""
  Version : String := ""
  Fragment : String := ""
  RequestedContentType : ContentType := ""
  deriving DecidableEq, Repr

/-- The method `FragmentDIDDocRequestService.SpecificPrepare`
(diddoc_fragment.go lines 21-28); `param` is the value of `c.Param("did")`.
The result is the receiver after the call and the returned error. -/
def SpecificPrepare (dd : FragmentDIDDocRequestService) (param : String) :
    FragmentDIDDocRequestService × Option GoError :=
  let splitted := stringsSplit param '#'
  match splitted with
  | [_, fragment] => ({ dd with Fragment := fragment }, none)
  | _ => (dd, none)

/-! ## Resource lookup on the ledger -/

/-- The lower-case form of a resource id: every letter `A`-`Z` is replaced by
`a`-`z` and every other character is kept. -/
def lowerCaseForm (s : String) : String :=
  String.mk (s.toList.map Char.toLower)

/-- Modelled from the spec: the ledger state that the resource lookup of
`services/ledger_service.go` reads; that file is missing from the sources.
The state is the resources on the ledger, each with the DID of its collection,
and the failure of the gateway (a timeout or transport error), if any. -/
structure ResourceLedger where
  resources : List (String × Resource) := []
  failure : Option GoError := none
  deriving DecidableEq, Repr

/-- Modelled from the spec: the method `LedgerService.QueryResource` of
`services/ledger_service.go`, missing from the sources. A gateway failure is
returned as the error. Otherwise the resource is looked up by
`(did, resourceId)`, the first match on the ledger winning, and resource-id
matching is case-insensitive: the upper- and lower-case forms of an id are
equivalent. No match is reported as not found. -/
def ResourceLedger.QueryResource (ledger : ResourceLedger) (did resourceId : String) :
    ResourceQuery :=
  match ledger.failure with
  | some err => { err := some err }
  | none =>
    match ledger.resources.find?
        (fun entry => entry.1 == did && lowerCaseForm entry.2.Id == lowerCaseForm resourceId) with
    | some entry => { resource := entry.2, isFound := true }
    | none => {}

/-! ## A sample deployment, used to instantiate the theorems -/

/-- Content types and schema URI of the sample deployment. -/
def sampleTypes : ContentTypes :=
  { DIDJSON := "application/did+json"
    DIDJSONLD := "application/did+ld+json"
    JSONLD := "application/ld+json"
    HTML := "text/html"
    DIDSchemaJSONLD := "https://www.w3.org/ns/did/v1" }

/-- Sample decomposer for DIDs: it knows three identifiers. -/
def sampleTrySplitDID (did : String) : SplitDID :=
  if did = "did:cheqd:testnet:abc" then
    { method := "cheqd", namespace_ := "testnet", id := "abc" }
  else if did = "did:cheqd:testnet:zzz" then
    { method := "cheqd", namespace_ := "testnet", id := "zzz" }
  else if did = "did:foo:testnet:abc" then
    { method := "foo", namespace_ := "testnet", id := "abc" }
  else { err := some "unable to split did into method, namespace and id" }

/-- Sample decomposer for DID URLs. -/
def sampleTrySplitDIDUrl (didUrl : String) : SplitDIDUrl :=
  if didUrl = "did:cheqd:testnet:abc" then { did := "did:cheqd:testnet:abc" }
  else if didUrl = "did:cheqd:testnet:zzz" then { did := "did:cheqd:testnet:zzz" }
  else if didUrl = "did:foo:testnet:abc" then { did := "did:foo:testnet:abc" }
  else if didUrl = "did:cheqd:testnet:abc#key-1" then
    { did := "did:cheqd:testnet:abc", fragmentId := "key-1" }
  else if didUrl = "did:cheqd:testnet:abc#service-1" then
    { did := "did:cheqd:testnet:abc", fragmentId := "service-1" }
  else if didUrl = "did:cheqd:testnet:abc#missing-key" then
    { did := "did:cheqd:testnet:abc", fragmentId := "missing-key" }
  else if didUrl = "did:cheqd:testnet:zzz#key-1" then
    { did := "did:cheqd:testnet:zzz", fragmentId := "key-1" }
  else if didUrl = "did:cheqd:testnet:abc?service=x" then
    { did := "did:cheqd:testnet:abc", query := "service=x" }
  else if didUrl = "did:cheqd:testnet:abc/resources/r1" then
    { did := "did:cheqd:testnet:abc", path := "/resources/r1" }
  else { err := some "unable to split did url" }

/-- Sample environment: table-driven decomposer, validity predicates that
accept what the decomposer accepts, and marshallers that render a few fields. -/
def sampleEnv : Env :=
  { K := sampleTypes
    TrySplitDID := sampleTrySplitDID
    TrySplitDIDUrl := sampleTrySplitDIDUrl
    IsValidDID := fun did _ _ => (sampleTrySplitDID did).err == none
    IsValidDIDUrl := fun didUrl _ _ => (sampleTrySplitDIDUrl didUrl).err == none
    GetResourceId := fun path => if path = "/resources/r1" then "r1" else ""
    now := "2022-01-01T00:00:00Z"
    jsonMarshalMetadata := fun m => ("\"" ++ m.ResolutionError ++ "\"", none)
    MarshallDID := fun d => ("\"" ++ d.Id ++ "\"", none)
    MarshallProto := fun m => ("\"" ++ m.VersionId ++ "\"", none)
    MarshallContentStream := fun c _ =>
      match c with
      | Content.didDoc d => ("\"" ++ d.Id ++ "\"", none)
      | Content.verificationMethod vm => ("\"" ++ vm.Id ++ "\"", none)
      | Content.service sv => ("\"" ++ sv.Id ++ "\"", none)
      | Content.resource r => ("\"" ++ r.Name ++ "\"", none)
    jsonCompact := fun raw =>
      if raw = "" then Except.error "unexpected end of JSON input" else Except.ok raw }

/-- Sample ledger: one document, with one verification method and one
service, and one resource; the lookup of `did:cheqd:testnet:zzz` times out. -/
def sampleLedger : LedgerServiceI :=
  { GetNamespaces := ["testnet", "mainnet"]
    QueryDIDDoc := fun did =>
      if did = "did:cheqd:testnet:abc" then
        { didDoc :=
            { Id := "did:cheqd:testnet:abc"
              VerificationMethod :=
                [{ Id := "did:cheqd:testnet:abc#key-1", Type_ := "Ed25519VerificationKey2020",
                   Controller := "did:cheqd:testnet:abc", PublicKeyMultibase := "z6Mk" }]
              Service :=
                [{ Id := "did:cheqd:testnet:abc#service-1", Type_ := "did-communication",
                   ServiceEndpoint := ["https://example.com/endpoint"] }] }
          metadata := { VersionId := "v1" }
          isFound := true }
      else if did = "did:cheqd:testnet:zzz" then
        { err := some "context deadline exceeded" }
      else {}
    QueryResource := fun did resourceId =>
      if did = "did:cheqd:testnet:abc" ∧ resourceId = "r1" then
        { resource := { CollectionId := "abc", Id := "r1", Name := "schema" }, isFound := true }
      else {} }

/-- Sample ledger on which no document exists. -/
def emptyLedger : LedgerServiceI :=
  { GetNamespaces := ["testnet", "mainnet"]
    QueryDIDDoc := fun _ => {}
    QueryResource := fun _ _ => {} }

/-- Sample request service, configured for the method `cheqd`. -/
def sampleService : RequestService :=
  { didMethod := "cheqd", ledgerService := sampleLedger }

/-- Sample request service over the empty ledger. -/
def emptyService : RequestService :=
  { didMethod := "cheqd", ledgerService := emptyLedger }

/-- Sample ledger whose document already carries the DID v1 schema URI in its
context. -/
def contextLedger : LedgerServiceI :=
  { GetNamespaces := ["testnet", "mainnet"]
    QueryDIDDoc := fun did =>
      if did = "did:cheqd:testnet:abc" then
        { didDoc :=
            { Context := ["https://www.w3.org/ns/did/v1"]
              Id := "did:cheqd:testnet:abc" }
          metadata := { VersionId := "v1" }
          isFound := true }
      else {}
    QueryResource := fun _ _ => {} }

/-- Sample request service over `contextLedger`. -/
def contextService : RequestService :=
  { didMethod := "cheqd", ledgerService := contextLedger }

/-- Sample key-material decoder: the values of `json.Unmarshal` into a nil
`*VerificationMaterial` on seven texts. An object sets the fields it names and
leaves the others at their zero value, `null` leaves the pointer nil, and the
text `z6Mk` and the empty text are not JSON. A text outside the sample is
answered like the empty text. -/
def sampleUnmarshal : MaterialDecoder := fun data =>
  if data = "\x7b\"publicKeyMultibase\":\"z6Mk\"\x7d" then
    Except.ok (some { PublicKeyMultibase := "z6Mk" })
  else if data = "\x7b\"publicKeyJwk\":\x7b\"kty\":\"OKP\"\x7d\x7d" then
    Except.ok (some { PublicKeyJwk := [("kty", "OKP")] })
  else if data = "\x7b\"publicKeyJwk\":\x7b\"kty\":\"OKP\"\x7d,\"publicKeyMultibase\":\"z6Mk\"\x7d" then
    Except.ok (some { PublicKeyJwk := [("kty", "OKP")], PublicKeyMultibase := "z6Mk" })
  else if data = "\x7b\x7d" then Except.ok (some {})
  else if data = "null" then Except.ok none
  else if data = "z6Mk" then
    Except.error "invalid character \x27z\x27 looking for beginning of value"
  else Except.error "unexpected end of JSON input"

/-- Sample ledger-native document with two verification methods and one
service. -/
def sampleProtoDidDoc : ProtoDidDoc :=
  { Id := "did:cheqd:testnet:abc"
    VerificationMethod :=
      [some { Id := "did:cheqd:testnet:abc#key-1", Type_ := "Ed25519VerificationKey2020",
              Controller := "did:cheqd:testnet:abc",
              VerificationMaterial := "\x7b\"publicKeyMultibase\":\"z6Mk\"\x7d" },
       some { Id := "did:cheqd:testnet:abc#key-2", Type_ := "JsonWebKey2020",
              Controller := "did:cheqd:testnet:abc",
              VerificationMaterial := "\x7b\"publicKeyJwk\":\x7b\"kty\":\"OKP\"\x7d\x7d" }]
    Service :=
      [some { Id := "did:cheqd:testnet:abc#service-1", Type_ := "did-communication",
              ServiceEndpoint := ["https://example.com/endpoint"] }] }

/-! ## Theorems -/

/-- The error codes written by `Resolve` are non-empty strings. -/
theorem resolution_error_codes_nonempty :
    ResolutionMethodNotSupported ≠ "" ∧ ResolutionInvalidDID ≠ "" ∧ ResolutionNotFound ≠ "" := by
  decide

/-- Branch 1 of `Resolve`: the decomposed method is not the configured one. -/
theorem Resolve_method_mismatch (E : Env) (rs : RequestService) (did : String)
    (opts : ResolutionOption) (hm : (E.TrySplitDID did).method ≠ rs.didMethod) :
    Resolve E rs did opts =
      { val := { ResolutionMetadata :=
                  { NewResolutionMetadata E did opts.Accept "" with
                    ResolutionError := ResolutionMethodNotSupported } }
        err := none
        calls := [] } := by
  unfold Resolve
  simp [hm]

/-- Branch 2 of `Resolve`: the DID fails the validity predicate. -/
theorem Resolve_invalid (E : Env) (rs : RequestService) (did : String)
    (opts : ResolutionOption) (hm : (E.TrySplitDID did).method = rs.didMethod)
    (hv : E.IsValidDID did "" rs.ledgerService.GetNamespaces = false) :
    Resolve E rs did opts =
      { val := { ResolutionMetadata :=
                  { NewResolutionMetadata E did opts.Accept "" with
                    ResolutionError := ResolutionInvalidDID } }
        err := none
        calls := [Call.GetNamespaces] } := by
  unfold Resolve
  simp [hm, hv]

/-- Branch 3 of `Resolve`: the ledger lookup fails. -/
theorem Resolve_ledger_error (E : Env) (rs : RequestService) (did : String)
    (opts : ResolutionOption) (e : GoError)
    (hm : (E.TrySplitDID did).method = rs.didMethod)
    (hv : E.IsValidDID did "" rs.ledgerService.GetNamespaces = true)
    (hq : (rs.ledgerService.QueryDIDDoc did).err = some e) :
    Resolve E rs did opts =
      { val := {}, err := some e, calls := [Call.GetNamespaces, Call.QueryDIDDoc did] } := by
  unfold Resolve
  simp [hm, hv, hq]

/-- Branch 4 of `Resolve`: the ledger reports the document as not found. -/
theorem Resolve_not_found (E : Env) (rs : RequestService) (did : String)
    (opts : ResolutionOption)
    (hm : (E.TrySplitDID did).method = rs.didMethod)
    (hv : E.IsValidDID did "" rs.ledgerService.GetNamespaces = true)
    (hq : (rs.ledgerService.QueryDIDDoc did).err = none)
    (hf : (rs.ledgerService.QueryDIDDoc did).isFound = false) :
    Resolve E rs did opts =
      { val := { ResolutionMetadata :=
                  { NewResolutionMetadata E did opts.Accept "" with
                    ResolutionError := ResolutionNotFound } }
        err := none
        calls := [Call.GetNamespaces, Call.QueryDIDDoc did] } := by
  unfold Resolve
  simp [hm, hv, hq, hf]

/-- Branch 5 of `Resolve`: the document is found and the content type is in
the JSON-LD family. -/
theorem Resolve_jsonld (E : Env) (rs : RequestService) (did : String)
    (opts : ResolutionOption)
    (hm : (E.TrySplitDID did).method = rs.didMethod)
    (hv : E.IsValidDID did "" rs.ledgerService.GetNamespaces = true)
    (hq : (rs.ledgerService.QueryDIDDoc did).err = none)
    (hf : (rs.ledgerService.QueryDIDDoc did).isFound = true)
    (hct : isJSONLDFamily E.K opts.Accept = true) :
    Resolve E rs did opts =
      { val := { Did := { (rs.ledgerService.QueryDIDDoc did).didDoc with
                          Context := (rs.ledgerService.QueryDIDDoc did).didDoc.Context
                            ++ [E.K.DIDSchemaJSONLD] }
                 Metadata := (rs.ledgerService.QueryDIDDoc did).metadata
                 ResolutionMetadata := NewResolutionMetadata E did opts.Accept "" }
        err := none
        calls := [Call.GetNamespaces, Call.QueryDIDDoc did] } := by
  unfold isJSONLDFamily at hct
  unfold Resolve
  simp [hm, hv, hq, hf, NewResolutionMetadata, hct]

/-- Branch 6 of `Resolve`: the document is found and the content type is plain
JSON or HTML (and not in the JSON-LD family). -/
theorem Resolve_plain (E : Env) (rs : RequestService) (did : String)
    (opts : ResolutionOption)
    (hm : (E.TrySplitDID did).method = rs.didMethod)
    (hv : E.IsValidDID did "" rs.ledgerService.GetNamespaces = true)
    (hq : (rs.ledgerService.QueryDIDDoc did).err = none)
    (hf : (rs.ledgerService.QueryDIDDoc did).isFound = true)
    (hct : isJSONLDFamily E.K opts.Accept = false)
    (hpl : isPlainJSONOrHTML E.K opts.Accept = true) :
    Resolve E rs did opts =
      { val := { Did := { (rs.ledgerService.QueryDIDDoc did).didDoc with Context := [] }
                 Metadata := (rs.ledgerService.QueryDIDDoc did).metadata
                 ResolutionMetadata := NewResolutionMetadata E did opts.Accept "" }
        err := none
        calls := [Call.GetNamespaces, Call.QueryDIDDoc did] } := by
  unfold isJSONLDFamily at hct
  unfold isPlainJSONOrHTML at hpl
  unfold Resolve
  simp [hm, hv, hq, hf, NewResolutionMetadata, hct, hpl]

/-- Branch 7 of `Resolve`: the document is found and the content type is in
neither class. -/
theorem Resolve_unsupported (E : Env) (rs : RequestService) (did : String)
    (opts : ResolutionOption)
    (hm : (E.TrySplitDID did).method = rs.didMethod)
    (hv : E.IsValidDID did "" rs.ledgerService.GetNamespaces = true)
    (hq : (rs.ledgerService.QueryDIDDoc did).err = none)
    (hf : (rs.ledgerService.QueryDIDDoc did).isFound = true)
    (hct : isJSONLDFamily E.K opts.Accept = false)
    (hpl : isPlainJSONOrHTML E.K opts.Accept = false) :
    Resolve E rs did opts =
      { val := {}
        err := some ("content type " ++ opts.Accept ++ " is not supported")
        calls := [Call.GetNamespaces, Call.QueryDIDDoc did] } := by
  unfold isJSONLDFamily at hct
  unfold isPlainJSONOrHTML at hpl
  unfold Resolve
  simp [hm, hv, hq, hf, NewResolutionMetadata, hct, hpl]

/-- C1. Context invariant of `Resolve`: when `Resolve` succeeds (nil error and
empty `resolutionError`), the negotiated content type is the accept type, the
context of the returned document is non-empty and contains the DID v1 schema
URI iff that content type is in the JSON-LD family, and the context is empty
iff the content type is plain JSON or HTML. The constants `DIDJSON` and `HTML`
are taken to lie outside the JSON-LD family, as their names say. -/
theorem C1_resolve_context_invariant (E : Env) (rs : RequestService) (did : String)
    (opts : ResolutionOption)
    (hjson : isJSONLDFamily E.K E.K.DIDJSON = false)
    (hhtml : isJSONLDFamily E.K E.K.HTML = false)
    (herr : (Resolve E rs did opts).err = none)
    (hok : (Resolve E rs did opts).val.ResolutionMetadata.ResolutionError = "") :
    (Resolve E rs did opts).val.ResolutionMetadata.ContentType = opts.Accept ∧
    (((Resolve E rs did opts).val.Did.Context ≠ [] ∧
        E.K.DIDSchemaJSONLD ∈ (Resolve E rs did opts).val.Did.Context) ↔
      isJSONLDFamily E.K opts.Accept = true) ∧
    ((Resolve E rs did opts).val.Did.Context = [] ↔
      (opts.Accept = E.K.DIDJSON ∨ opts.Accept = E.K.HTML)) := by
  have hc := resolution_error_codes_nonempty
  by_cases hm : (E.TrySplitDID did).method = rs.didMethod
  swap
  · rw [Resolve_method_mismatch E rs did opts hm] at hok
    exact absurd hok hc.1
  cases hv : E.IsValidDID did "" rs.ledgerService.GetNamespaces
  · rw [Resolve_invalid E rs did opts hm hv] at hok
    exact absurd hok hc.2.1
  cases hq : (rs.ledgerService.QueryDIDDoc did).err with
  | some e =>
    rw [Resolve_ledger_error E rs did opts e hm hv hq] at herr
    simp at herr
  | none =>
    cases hf : (rs.ledgerService.QueryDIDDoc did).isFound
    · rw [Resolve_not_found E rs did opts hm hv hq hf] at hok
      exact absurd hok hc.2.2
    cases hct : isJSONLDFamily E.K opts.Accept
    · cases hpl : isPlainJSONOrHTML E.K opts.Accept
      · rw [Resolve_unsupported E rs did opts hm hv hq hf hct hpl] at herr
        simp at herr
      · rw [Resolve_plain E rs did opts hm hv hq hf hct hpl]
        simpa [NewResolutionMetadata, isPlainJSONOrHTML] using hpl
    · rw [Resolve_jsonld E rs did opts hm hv hq hf hct]
      refine ⟨by simp [NewResolutionMetadata], by simp, ?_⟩
      have h1 : opts.Accept ≠ E.K.DIDJSON := fun h => by
        rw [h, hjson] at hct; exact Bool.noConfusion hct
      have h2 : opts.Accept ≠ E.K.HTML := fun h => by
        rw [h, hhtml] at hct; exact Bool.noConfusion hct
      simp [h1, h2]

/-- C1, instantiated (scenario A): resolving an existing document with accept
type `DIDJSONLD` in the sample deployment. -/
theorem C1_resolve_context_invariant_witness :
    (isJSONLDFamily sampleEnv.K sampleEnv.K.DIDJSON = false ∧
      isJSONLDFamily sampleEnv.K sampleEnv.K.HTML = false ∧
      (Resolve sampleEnv sampleService "did:cheqd:testnet:abc"
        { Accept := "application/did+ld+json" }).err = none ∧
      (Resolve sampleEnv sampleService "did:cheqd:testnet:abc"
        { Accept := "application/did+ld+json" }).val.ResolutionMetadata.ResolutionError = "") ∧
    ((Resolve sampleEnv sampleService "did:cheqd:testnet:abc"
        { Accept := "application/did+ld+json" }).val.ResolutionMetadata.ContentType
        = "application/did+ld+json" ∧
      (((Resolve sampleEnv sampleService "did:cheqd:testnet:abc"
          { Accept := "application/did+ld+json" }).val.Did.Context ≠ [] ∧
        sampleEnv.K.DIDSchemaJSONLD ∈ (Resolve sampleEnv sampleService "did:cheqd:testnet:abc"
          { Accept := "application/did+ld+json" }).val.Did.Context) ↔
        isJSONLDFamily sampleEnv.K "application/did+ld+json" = true) ∧
      ((Resolve sampleEnv sampleService "did:cheqd:testnet:abc"
          { Accept := "application/did+ld+json" }).val.Did.Context = [] ↔
        ("application/did+ld+json" = sampleEnv.K.DIDJSON ∨
          "application/did+ld+json" = sampleEnv.K.HTML))) :=
  ⟨⟨by decide, by decide, by decide, by decide⟩,
    C1_resolve_context_invariant sampleEnv sampleService "did:cheqd:testnet:abc"
      { Accept := "application/did+ld+json" } (by decide) (by decide) (by decide) (by decide)⟩

/-- C2. For a DID whose decomposed method differs from the configured method,
whatever the accept type and the ledger state, `Resolve` returns a nil error
and a result whose `resolutionError` is `methodNotSupported`, whose content
type is the accept type, and whose document and document metadata are the zero
values; no call reaches the ledger. -/
theorem C2_resolve_method_not_supported (E : Env) (rs : RequestService) (did : String)
    (opts : ResolutionOption) (hm : (E.TrySplitDID did).method ≠ rs.didMethod) :
    (Resolve E rs did opts).err = none ∧
    (Resolve E rs did opts).val.ResolutionMetadata.ResolutionError = "methodNotSupported" ∧
    (Resolve E rs did opts).val.ResolutionMetadata.ContentType = opts.Accept ∧
    (Resolve E rs did opts).val.Did = {} ∧
    (Resolve E rs did opts).val.Metadata = {} ∧
    (Resolve E rs did opts).calls = [] := by
  rw [Resolve_method_mismatch E rs did opts hm]
  simp [ResolutionMethodNotSupported, NewResolutionMetadata]

/-- C2, instantiated (scenario B): the method `foo` is not the configured
method `cheqd`. -/
theorem C2_resolve_method_not_supported_witness :
    (sampleEnv.TrySplitDID "did:foo:testnet:abc").method ≠ sampleService.didMethod ∧
    ((Resolve sampleEnv sampleService "did:foo:testnet:abc" { Accept := "text/html" }).err = none ∧
    (Resolve sampleEnv sampleService "did:foo:testnet:abc"
      { Accept := "text/html" }).val.ResolutionMetadata.ResolutionError = "methodNotSupported" ∧
    (Resolve sampleEnv sampleService "did:foo:testnet:abc"
      { Accept := "text/html" }).val.ResolutionMetadata.ContentType = "text/html" ∧
    (Resolve sampleEnv sampleService "did:foo:testnet:abc" { Accept := "text/html" }).val.Did = {} ∧
    (Resolve sampleEnv sampleService "did:foo:testnet:abc"
      { Accept := "text/html" }).val.Metadata = {} ∧
    (Resolve sampleEnv sampleService "did:foo:testnet:abc" { Accept := "text/html" }).calls = []) :=
  ⟨by decide,
    C2_resolve_method_not_supported sampleEnv sampleService "did:foo:testnet:abc"
      { Accept := "text/html" } (by decide)⟩

/-- C3. For a DID with the configured method that passes the validity
predicate, if the ledger lookup returns a nil error and reports the document
as not found, then for every accept type `Resolve` returns a nil error and a
result whose `resolutionError` is `notFound` and whose document and document
metadata are the zero values. -/
theorem C3_resolve_not_found (E : Env) (rs : RequestService) (did : String)
    (opts : ResolutionOption)
    (hm : (E.TrySplitDID did).method = rs.didMethod)
    (hv : E.IsValidDID did "" rs.ledgerService.GetNamespaces = true)
    (hq : (rs.ledgerService.QueryDIDDoc did).err = none)
    (hf : (rs.ledgerService.QueryDIDDoc did).isFound = false) :
    (Resolve E rs did opts).err = none ∧
    (Resolve E rs did opts).val.ResolutionMetadata.ResolutionError = "notFound" ∧
    (Resolve E rs did opts).val.Did = {} ∧
    (Resolve E rs did opts).val.Metadata = {} := by
  rw [Resolve_not_found E rs did opts hm hv hq hf]
  simp [ResolutionNotFound]

/-- C3, instantiated (scenario C): a well-formed DID on a ledger that has no
document, with an accept type that no branch of the content-type check
supports. -/
theorem C3_resolve_not_found_witness :
    ((sampleEnv.TrySplitDID "did:cheqd:testnet:abc").method = emptyService.didMethod ∧
      sampleEnv.IsValidDID "did:cheqd:testnet:abc" "" emptyService.ledgerService.GetNamespaces
        = true ∧
      (emptyService.ledgerService.QueryDIDDoc "did:cheqd:testnet:abc").err = none ∧
      (emptyService.ledgerService.QueryDIDDoc "did:cheqd:testnet:abc").isFound = false) ∧
    ((Resolve sampleEnv emptyService "did:cheqd:testnet:abc" { Accept := "image/png" }).err
        = none ∧
      (Resolve sampleEnv emptyService "did:cheqd:testnet:abc"
        { Accept := "image/png" }).val.ResolutionMetadata.ResolutionError = "notFound" ∧
      (Resolve sampleEnv emptyService "did:cheqd:testnet:abc" { Accept := "image/png" }).val.Did
        = {} ∧
      (Resolve sampleEnv emptyService "did:cheqd:testnet:abc"
        { Accept := "image/png" }).val.Metadata = {}) :=
  ⟨⟨by decide, by decide, by decide, by decide⟩,
    C3_resolve_not_found sampleEnv emptyService "did:cheqd:testnet:abc"
      { Accept := "image/png" } (by decide) (by decide) (by decide) (by decide)⟩

/-- A hard error of `Resolve` comes back unchanged from `dereferenceSecondary`,
with the zero-value result. -/
theorem dereferenceSecondary_resolve_error (E : Env) (rs : RequestService)
    (did fragmentId didUrl : String) (opts : DereferencingOption) (e : GoError)
    (he : (Resolve E rs did opts).err = some e) :
    (dereferenceSecondary E rs did fragmentId didUrl opts).err = some e ∧
    (dereferenceSecondary E rs did fragmentId didUrl opts).val = {} := by
  unfold dereferenceSecondary
  simp [he]

/-- On a valid DID URL with empty query and empty path, `Dereference` is the
secondary flow on the decomposed DID and fragment, the value being replaced by
the zero value when the flow fails. -/
theorem Dereference_secondary (E : Env) (rs : RequestService) (didUrl : String)
    (opts : DereferencingOption)
    (hu : (E.TrySplitDIDUrl didUrl).err = none)
    (hv : E.IsValidDIDUrl didUrl "" [] = true)
    (hq : (E.TrySplitDIDUrl didUrl).query = "")
    (hp : (E.TrySplitDIDUrl didUrl).path = "") :
    Dereference E rs didUrl opts =
      match (dereferenceSecondary E rs (E.TrySplitDIDUrl didUrl).did
          (E.TrySplitDIDUrl didUrl).fragmentId didUrl opts).err with
      | some err =>
        { val := {}, err := some err
          calls := (dereferenceSecondary E rs (E.TrySplitDIDUrl didUrl).did
            (E.TrySplitDIDUrl didUrl).fragmentId didUrl opts).calls }
      | none =>
        { val := (dereferenceSecondary E rs (E.TrySplitDIDUrl didUrl).did
            (E.TrySplitDIDUrl didUrl).fragmentId didUrl opts).val
          err := none
          calls := (dereferenceSecondary E rs (E.TrySplitDIDUrl didUrl).did
            (E.TrySplitDIDUrl didUrl).fragmentId didUrl opts).calls } := by
  unfold Dereference
  simp [hu, hv, hq, hp]

/-- On a valid DID URL with empty query and non-empty path, `Dereference` is
the primary flow on the decomposed path and DID, the value being replaced by
the zero value when the flow fails. -/
theorem Dereference_primary (E : Env) (rs : RequestService) (didUrl : String)
    (opts : DereferencingOption)
    (hu : (E.TrySplitDIDUrl didUrl).err = none)
    (hv : E.IsValidDIDUrl didUrl "" [] = true)
    (hq : (E.TrySplitDIDUrl didUrl).query = "")
    (hp : (E.TrySplitDIDUrl didUrl).path ≠ "") :
    Dereference E rs didUrl opts =
      match (dereferencePrimary E rs (E.TrySplitDIDUrl didUrl).path
          (E.TrySplitDIDUrl didUrl).did didUrl opts).err with
      | some err =>
        { val := {}, err := some err
          calls := (dereferencePrimary E rs (E.TrySplitDIDUrl didUrl).path
            (E.TrySplitDIDUrl didUrl).did didUrl opts).calls }
      | none =>
        { val := (dereferencePrimary E rs (E.TrySplitDIDUrl didUrl).path
            (E.TrySplitDIDUrl didUrl).did didUrl opts).val
          err := none
          calls := (dereferencePrimary E rs (E.TrySplitDIDUrl didUrl).path
            (E.TrySplitDIDUrl didUrl).did didUrl opts).calls } := by
  unfold Dereference
  simp [hu, hv, hq, hp]

/-- C4. For a DID with the configured method that passes the validity
predicate, if the ledger document lookup fails with error `e`, then `Resolve`
returns exactly `e` as its error together with the zero-value result (so no
`resolutionError` is written); the secondary flow on that DID returns `e` with
the zero value, and so does `Dereference` on every valid DID URL with empty
query and path that decomposes to that DID. -/
theorem C4_ledger_error_propagates (E : Env) (rs : RequestService) (did : String)
    (opts : ResolutionOption) (e : GoError)
    (hm : (E.TrySplitDID did).method = rs.didMethod)
    (hv : E.IsValidDID did "" rs.ledgerService.GetNamespaces = true)
    (hq : (rs.ledgerService.QueryDIDDoc did).err = some e) :
    ((Resolve E rs did opts).err = some e ∧
      (Resolve E rs did opts).val = {} ∧
      (Resolve E rs did opts).val.ResolutionMetadata.ResolutionError = "") ∧
    (∀ fragmentId didUrl : String,
      (dereferenceSecondary E rs did fragmentId didUrl opts).err = some e ∧
      (dereferenceSecondary E rs did fragmentId didUrl opts).val = {}) ∧
    (∀ didUrl : String,
      (E.TrySplitDIDUrl didUrl).err = none →
      E.IsValidDIDUrl didUrl "" [] = true →
      (E.TrySplitDIDUrl didUrl).query = "" →
      (E.TrySplitDIDUrl didUrl).path = "" →
      (E.TrySplitDIDUrl didUrl).did = did →
      (Dereference E rs didUrl opts).err = some e ∧
      (Dereference E rs didUrl opts).val = {}) := by
  have hr : (Resolve E rs did opts).err = some e := by
    rw [Resolve_ledger_error E rs did opts e hm hv hq]
  refine ⟨?_, ?_, ?_⟩
  · rw [Resolve_ledger_error E rs did opts e hm hv hq]
    simp
  · intro fragmentId didUrl
    exact dereferenceSecondary_resolve_error E rs did fragmentId didUrl opts e hr
  · intro didUrl hu hvu hqu hpu hd
    have hs := dereferenceSecondary_resolve_error E rs did
      (E.TrySplitDIDUrl didUrl).fragmentId didUrl opts e hr
    rw [Dereference_secondary E rs didUrl opts hu hvu hqu hpu, hd, hs.1]
    simp

/-- C4, instantiated: the sample ledger times out on `did:cheqd:testnet:zzz`;
`Resolve` and `Dereference` of `did:cheqd:testnet:zzz#key-1` return that
error. -/
theorem C4_ledger_error_propagates_witness :
    ((sampleEnv.TrySplitDID "did:cheqd:testnet:zzz").method = sampleService.didMethod ∧
      sampleEnv.IsValidDID "did:cheqd:testnet:zzz" "" sampleService.ledgerService.GetNamespaces
        = true ∧
      (sampleService.ledgerService.QueryDIDDoc "did:cheqd:testnet:zzz").err
        = some "context deadline exceeded") ∧
    ((Resolve sampleEnv sampleService "did:cheqd:testnet:zzz"
        { Accept := "application/did+json" }).err = some "context deadline exceeded" ∧
      (Resolve sampleEnv sampleService "did:cheqd:testnet:zzz"
        { Accept := "application/did+json" }).val = {}) ∧
    ((Dereference sampleEnv sampleService "did:cheqd:testnet:zzz#key-1"
        { Accept := "application/did+json" }).err = some "context deadline exceeded" ∧
      (Dereference sampleEnv sampleService "did:cheqd:testnet:zzz#key-1"
        { Accept := "application/did+json" }).val = {}) :=
  have h := C4_ledger_error_propagates sampleEnv sampleService "did:cheqd:testnet:zzz"
    { Accept := "application/did+json" } "context deadline exceeded"
    (by decide) (by decide) (by decide)
  ⟨⟨by decide, by decide, by decide⟩, ⟨h.1.1, h.1.2.1⟩,
    h.2.2 "did:cheqd:testnet:zzz#key-1" (by decide) (by decide) (by decide) (by decide)
      (by decide)⟩

/-- C5. For a DID found on the ledger (configured method, valid, lookup
succeeds and finds the document): if the negotiated content type is neither in
the JSON-LD family nor plain JSON nor HTML, `Resolve` returns the hard error
"content type ... is not supported" and the zero-value result, whose
`resolutionError` is empty; if it is in the JSON-LD family, plain JSON or HTML,
`Resolve` returns a nil error. -/
theorem C5_resolve_unsupported_content_type (E : Env) (rs : RequestService) (did : String)
    (opts : ResolutionOption)
    (hm : (E.TrySplitDID did).method = rs.didMethod)
    (hv : E.IsValidDID did "" rs.ledgerService.GetNamespaces = true)
    (hq : (rs.ledgerService.QueryDIDDoc did).err = none)
    (hf : (rs.ledgerService.QueryDIDDoc did).isFound = true) :
    ((isJSONLDFamily E.K opts.Accept = false ∧ opts.Accept ≠ E.K.DIDJSON ∧
        opts.Accept ≠ E.K.HTML) →
      (Resolve E rs did opts).err
          = some ("content type " ++ opts.Accept ++ " is not supported") ∧
        (Resolve E rs did opts).val = {} ∧
        (Resolve E rs did opts).val.ResolutionMetadata.ResolutionError = "") ∧
    ((isJSONLDFamily E.K opts.Accept = true ∨ opts.Accept = E.K.DIDJSON ∨
        opts.Accept = E.K.HTML) →
      (Resolve E rs did opts).err = none) := by
  constructor
  · rintro ⟨hct, h1, h2⟩
    have hpl : isPlainJSONOrHTML E.K opts.Accept = false := by
      simp [isPlainJSONOrHTML, h1, h2]
    rw [Resolve_unsupported E rs did opts hm hv hq hf hct hpl]
    simp
  · intro h
    cases hct : isJSONLDFamily E.K opts.Accept
    · have hpl : isPlainJSONOrHTML E.K opts.Accept = true := by
        rcases h with h | h | h
        · rw [hct] at h; exact Bool.noConfusion h
        · simp [isPlainJSONOrHTML, h]
        · simp [isPlainJSONOrHTML, h]
      rw [Resolve_plain E rs did opts hm hv hq hf hct hpl]
    · rw [Resolve_jsonld E rs did opts hm hv hq hf hct]

/-- C5, instantiated: the sample document requested as `image/png`. -/
theorem C5_resolve_unsupported_content_type_witness :
    ((sampleEnv.TrySplitDID "did:cheqd:testnet:abc").method = sampleService.didMethod ∧
      sampleEnv.IsValidDID "did:cheqd:testnet:abc" "" sampleService.ledgerService.GetNamespaces
        = true ∧
      (sampleService.ledgerService.QueryDIDDoc "did:cheqd:testnet:abc").err = none ∧
      (sampleService.ledgerService.QueryDIDDoc "did:cheqd:testnet:abc").isFound = true ∧
      isJSONLDFamily sampleEnv.K "image/png" = false ∧ "image/png" ≠ sampleEnv.K.DIDJSON ∧
      "image/png" ≠ sampleEnv.K.HTML) ∧
    ((Resolve sampleEnv sampleService "did:cheqd:testnet:abc" { Accept := "image/png" }).err
        = some "content type image/png is not supported" ∧
      (Resolve sampleEnv sampleService "did:cheqd:testnet:abc" { Accept := "image/png" }).val
        = {} ∧
      (Resolve sampleEnv sampleService "did:cheqd:testnet:abc"
        { Accept := "image/png" }).val.ResolutionMetadata.ResolutionError = "") :=
  ⟨⟨by decide, by decide, by decide, by decide, by decide, by decide, by decide⟩,
    (C5_resolve_unsupported_content_type sampleEnv sampleService "did:cheqd:testnet:abc"
      { Accept := "image/png" } (by decide) (by decide) (by decide) (by decide)).1
      ⟨by decide, by decide, by decide⟩⟩

/-- C6. For every input string whose DID-URL decomposition fails or which
fails the DID-URL validity predicate, `Dereference` returns a nil error and a
result whose dereferencing error is `invalidDidUrl`, whose content type is the
accept type, and whose content stream and content metadata are empty; no call
is made to the ledger or to `Resolve`. -/
theorem C6_dereference_invalid_did_url (E : Env) (rs : RequestService) (didUrl : String)
    (opts : DereferencingOption)
    (h : (E.TrySplitDIDUrl didUrl).err ≠ none ∨ E.IsValidDIDUrl didUrl "" [] = false) :
    (Dereference E rs didUrl opts).err = none ∧
    (Dereference E rs didUrl opts).val.DereferencingMetadata.ResolutionError
      = "invalidDidUrl" ∧
    (Dereference E rs didUrl opts).val.DereferencingMetadata.ContentType = opts.Accept ∧
    (Dereference E rs didUrl opts).val.ContentStream = none ∧
    (Dereference E rs didUrl opts).val.Metadata = {} ∧
    (Dereference E rs didUrl opts).calls = [] := by
  unfold Dereference
  simp only [if_pos h]
  simp [NewDereferencingMetadata, NewResolutionMetadata, DereferencingInvalidDIDUrl]

/-- C6, instantiated: a string the sample decomposer rejects. -/
theorem C6_dereference_invalid_did_url_witness :
    ((sampleEnv.TrySplitDIDUrl "not a did url").err ≠ none ∨
      sampleEnv.IsValidDIDUrl "not a did url" "" [] = false) ∧
    ((Dereference sampleEnv sampleService "not a did url"
        { Accept := "application/did+json" }).err = none ∧
      (Dereference sampleEnv sampleService "not a did url"
        { Accept := "application/did+json" }).val.DereferencingMetadata.ResolutionError
        = "invalidDidUrl" ∧
      (Dereference sampleEnv sampleService "not a did url"
        { Accept := "application/did+json" }).val.DereferencingMetadata.ContentType
        = "application/did+json" ∧
      (Dereference sampleEnv sampleService "not a did url"
        { Accept := "application/did+json" }).val.ContentStream = none ∧
      (Dereference sampleEnv sampleService "not a did url"
        { Accept := "application/did+json" }).val.Metadata = {} ∧
      (Dereference sampleEnv sampleService "not a did url"
        { Accept := "application/did+json" }).calls = []) :=
  ⟨by decide,
    C6_dereference_invalid_did_url sampleEnv sampleService "not a did url"
      { Accept := "application/did+json" } (by decide)⟩

/-- C7. For every valid DID URL whose decomposed query is non-empty, whatever
its path and fragment and whatever the ledger state, `Dereference` returns a
nil error and a result whose dereferencing error is `notSupported` with an
empty content stream and empty content metadata; no call is made to the ledger
or to `Resolve`. -/
theorem C7_dereference_query_not_supported (E : Env) (rs : RequestService) (didUrl : String)
    (opts : DereferencingOption)
    (hu : (E.TrySplitDIDUrl didUrl).err = none)
    (hv : E.IsValidDIDUrl didUrl "" [] = true)
    (hq : (E.TrySplitDIDUrl didUrl).query ≠ "") :
    (Dereference E rs didUrl opts).err = none ∧
    (Dereference E rs didUrl opts).val.DereferencingMetadata.ResolutionError
      = "notSupported" ∧
    (Dereference E rs didUrl opts).val.ContentStream = none ∧
    (Dereference E rs didUrl opts).val.Metadata = {} ∧
    (Dereference E rs didUrl opts).calls = [] := by
  unfold Dereference
  simp [hu, hv, hq, NewDereferencingMetadata, NewResolutionMetadata, DereferencingNotSupported]

/-- C7, instantiated (scenario D): a DID URL with the query `service=x`. -/
theorem C7_dereference_query_not_supported_witness :
    ((sampleEnv.TrySplitDIDUrl "did:cheqd:testnet:abc?service=x").err = none ∧
      sampleEnv.IsValidDIDUrl "did:cheqd:testnet:abc?service=x" "" [] = true ∧
      (sampleEnv.TrySplitDIDUrl "did:cheqd:testnet:abc?service=x").query ≠ "") ∧
    ((Dereference sampleEnv sampleService "did:cheqd:testnet:abc?service=x"
        { Accept := "application/did+json" }).err = none ∧
      (Dereference sampleEnv sampleService "did:cheqd:testnet:abc?service=x"
        { Accept := "application/did+json" }).val.DereferencingMetadata.ResolutionError
        = "notSupported" ∧
      (Dereference sampleEnv sampleService "did:cheqd:testnet:abc?service=x"
        { Accept := "application/did+json" }).val.ContentStream = none ∧
      (Dereference sampleEnv sampleService "did:cheqd:testnet:abc?service=x"
        { Accept := "application/did+json" }).val.Metadata = {} ∧
      (Dereference sampleEnv sampleService "did:cheqd:testnet:abc?service=x"
        { Accept := "application/did+json" }).calls = []) :=
  ⟨⟨by decide, by decide, by decide⟩,
    C7_dereference_query_not_supported sampleEnv sampleService
      "did:cheqd:testnet:abc?service=x" { Accept := "application/did+json" }
      (by decide) (by decide) (by decide)⟩

/-- The fragment lookup finds nothing when no verification method and no
service has an `id` whose fragment component is the fragment. -/
theorem GetDIDFragment_eq_none (E : Env) (fragmentId : String) (didDoc : DidDoc)
    (hvm : ∀ vm ∈ didDoc.VerificationMethod, (E.TrySplitDIDUrl vm.Id).fragmentId ≠ fragmentId)
    (hsv : ∀ sv ∈ didDoc.Service, (E.TrySplitDIDUrl sv.Id).fragmentId ≠ fragmentId) :
    GetDIDFragment E fragmentId didDoc = none := by
  have h1 : didDoc.VerificationMethod.find?
      (fun vm => (E.TrySplitDIDUrl vm.Id).fragmentId == fragmentId) = none := by
    rw [List.find?_eq_none]
    intro vm hmem
    simpa using hvm vm hmem
  have h2 : didDoc.Service.find?
      (fun sv => (E.TrySplitDIDUrl sv.Id).fragmentId == fragmentId) = none := by
    rw [List.find?_eq_none]
    intro sv hmem
    simpa using hsv sv hmem
  unfold GetDIDFragment
  rw [h1, h2]

/-- C8. For every valid DID URL with empty path and query and a non-empty
fragment, if the DID resolves successfully (nil error, empty
`resolutionError`) and no verification method and no service of the resolved
document has an `id` whose fragment component equals the fragment, then
`Dereference` returns a nil error and a result whose dereferencing error is
`notFound` and whose content stream is empty. -/
theorem C8_dereference_fragment_not_found (E : Env) (rs : RequestService) (didUrl : String)
    (opts : DereferencingOption)
    (hu : (E.TrySplitDIDUrl didUrl).err = none)
    (hv : E.IsValidDIDUrl didUrl "" [] = true)
    (hq : (E.TrySplitDIDUrl didUrl).query = "")
    (hp : (E.TrySplitDIDUrl didUrl).path = "")
    (hfr : (E.TrySplitDIDUrl didUrl).fragmentId ≠ "")
    (hre : (Resolve E rs (E.TrySplitDIDUrl didUrl).did opts).err = none)
    (hrs : (Resolve E rs (E.TrySplitDIDUrl didUrl).did opts).val.ResolutionMetadata.ResolutionError
      = "")
    (hvm : ∀ vm ∈ (Resolve E rs (E.TrySplitDIDUrl didUrl).did opts).val.Did.VerificationMethod,
      (E.TrySplitDIDUrl vm.Id).fragmentId ≠ (E.TrySplitDIDUrl didUrl).fragmentId)
    (hsv : ∀ sv ∈ (Resolve E rs (E.TrySplitDIDUrl didUrl).did opts).val.Did.Service,
      (E.TrySplitDIDUrl sv.Id).fragmentId ≠ (E.TrySplitDIDUrl didUrl).fragmentId) :
    (Dereference E rs didUrl opts).err = none ∧
    (Dereference E rs didUrl opts).val.DereferencingMetadata.ResolutionError = "notFound" ∧
    (Dereference E rs didUrl opts).val.ContentStream = none := by
  have hg := GetDIDFragment_eq_none E (E.TrySplitDIDUrl didUrl).fragmentId
    (Resolve E rs (E.TrySplitDIDUrl didUrl).did opts).val.Did hvm hsv
  have hs : dereferenceSecondary E rs (E.TrySplitDIDUrl didUrl).did
      (E.TrySplitDIDUrl didUrl).fragmentId didUrl opts =
      { val := { DereferencingMetadata :=
                  NewDereferencingMetadata E didUrl opts.Accept DereferencingNotFound }
        err := none
        calls := Call.Resolve (E.TrySplitDIDUrl didUrl).did ::
          (Resolve E rs (E.TrySplitDIDUrl didUrl).did opts).calls ++
            [Call.GetDIDFragment (E.TrySplitDIDUrl didUrl).fragmentId] } := by
    unfold dereferenceSecondary
    simp [hre, hrs, hfr, hg]
  rw [Dereference_secondary E rs didUrl opts hu hv hq hp, hs]
  simp [NewDereferencingMetadata, NewResolutionMetadata, DereferencingNotFound]

/-- C8, instantiated (scenario F): the fragment `missing-key` on the sample
document, which has `key-1` and `service-1` only. -/
theorem C8_dereference_fragment_not_found_witness :
    ((sampleEnv.TrySplitDIDUrl "did:cheqd:testnet:abc#missing-key").err = none ∧
      sampleEnv.IsValidDIDUrl "did:cheqd:testnet:abc#missing-key" "" [] = true ∧
      (sampleEnv.TrySplitDIDUrl "did:cheqd:testnet:abc#missing-key").query = "" ∧
      (sampleEnv.TrySplitDIDUrl "did:cheqd:testnet:abc#missing-key").path = "" ∧
      (sampleEnv.TrySplitDIDUrl "did:cheqd:testnet:abc#missing-key").fragmentId
        = "missing-key" ∧
      (Resolve sampleEnv sampleService "did:cheqd:testnet:abc"
        { Accept := "application/did+json" }).err = none ∧
      (Resolve sampleEnv sampleService "did:cheqd:testnet:abc"
        { Accept := "application/did+json" }).val.ResolutionMetadata.ResolutionError = "") ∧
    ((Dereference sampleEnv sampleService "did:cheqd:testnet:abc#missing-key"
        { Accept := "application/did+json" }).err = none ∧
      (Dereference sampleEnv sampleService "did:cheqd:testnet:abc#missing-key"
        { Accept := "application/did+json" }).val.DereferencingMetadata.ResolutionError
        = "notFound" ∧
      (Dereference sampleEnv sampleService "did:cheqd:testnet:abc#missing-key"
        { Accept := "application/did+json" }).val.ContentStream = none) :=
  ⟨⟨by decide, by decide, by decide, by decide, by decide, by decide, by decide⟩,
    C8_dereference_fragment_not_found sampleEnv sampleService
      "did:cheqd:testnet:abc#missing-key" { Accept := "application/did+json" }
      (by decide) (by decide) (by decide) (by decide) (by decide) (by decide) (by decide)
      (by decide) (by decide)⟩

/-- C9. For every valid DID URL with empty query whose path is non-empty and
yields a resource id, if the ledger returns the resource for (did, resource
id) as found with a nil error and its serialization in the requested content
type succeeds, then `Dereference` returns a nil error and a result whose
dereferencing error is the empty string and whose content stream is the
serialization of exactly that ledger resource in the requested content type;
the ledger is asked once, for that pair. -/
theorem C9_dereference_resource (E : Env) (rs : RequestService) (didUrl : String)
    (opts : DereferencingOption)
    (hu : (E.TrySplitDIDUrl didUrl).err = none)
    (hv : E.IsValidDIDUrl didUrl "" [] = true)
    (hq : (E.TrySplitDIDUrl didUrl).query = "")
    (hp : (E.TrySplitDIDUrl didUrl).path ≠ "")
    (hid : E.GetResourceId (E.TrySplitDIDUrl didUrl).path ≠ "")
    (hqe : (rs.ledgerService.QueryResource (E.TrySplitDIDUrl didUrl).did
      (E.GetResourceId (E.TrySplitDIDUrl didUrl).path)).err = none)
    (hqf : (rs.ledgerService.QueryResource (E.TrySplitDIDUrl didUrl).did
      (E.GetResourceId (E.TrySplitDIDUrl didUrl).path)).isFound = true)
    (hms : (E.MarshallContentStream (Content.resource
      (rs.ledgerService.QueryResource (E.TrySplitDIDUrl didUrl).did
        (E.GetResourceId (E.TrySplitDIDUrl didUrl).path)).resource) opts.Accept).2 = none) :
    (Dereference E rs didUrl opts).err = none ∧
    (Dereference E rs didUrl opts).val.DereferencingMetadata.ResolutionError = "" ∧
    (Dereference E rs didUrl opts).val.DereferencingMetadata.ContentType = opts.Accept ∧
    (Dereference E rs didUrl opts).val.ContentStream =
      some (E.MarshallContentStream (Content.resource
        (rs.ledgerService.QueryResource (E.TrySplitDIDUrl didUrl).did
          (E.GetResourceId (E.TrySplitDIDUrl didUrl).path)).resource) opts.Accept).1 ∧
    (Dereference E rs didUrl opts).calls =
      [Call.QueryResource (E.TrySplitDIDUrl didUrl).did
        (E.GetResourceId (E.TrySplitDIDUrl didUrl).path)] := by
  have hs : dereferencePrimary E rs (E.TrySplitDIDUrl didUrl).path
      (E.TrySplitDIDUrl didUrl).did didUrl opts =
      { val := { ContentStream := some (E.MarshallContentStream (Content.resource
                    (rs.ledgerService.QueryResource (E.TrySplitDIDUrl didUrl).did
                      (E.GetResourceId (E.TrySplitDIDUrl didUrl).path)).resource)
                    opts.Accept).1
                 DereferencingMetadata :=
                   NewDereferencingMetadata E (E.TrySplitDIDUrl didUrl).did opts.Accept "" }
        err := none
        calls := [Call.QueryResource (E.TrySplitDIDUrl didUrl).did
          (E.GetResourceId (E.TrySplitDIDUrl didUrl).path)] } := by
    unfold dereferencePrimary
    simp [hid, hqe, hqf, hms]
  rw [Dereference_primary E rs didUrl opts hu hv hq hp, hs]
  simp [NewDereferencingMetadata, NewResolutionMetadata]

/-- C9, instantiated (scenario E): the resource `r1` of the sample ledger. -/
theorem C9_dereference_resource_witness :
    ((sampleEnv.TrySplitDIDUrl "did:cheqd:testnet:abc/resources/r1").err = none ∧
      sampleEnv.IsValidDIDUrl "did:cheqd:testnet:abc/resources/r1" "" [] = true ∧
      (sampleEnv.TrySplitDIDUrl "did:cheqd:testnet:abc/resources/r1").query = "" ∧
      (sampleEnv.TrySplitDIDUrl "did:cheqd:testnet:abc/resources/r1").path
        = "/resources/r1" ∧
      sampleEnv.GetResourceId "/resources/r1" = "r1" ∧
      (sampleService.ledgerService.QueryResource "did:cheqd:testnet:abc" "r1").isFound
        = true) ∧
    ((Dereference sampleEnv sampleService "did:cheqd:testnet:abc/resources/r1"
        { Accept := "application/did+json" }).err = none ∧
      (Dereference sampleEnv sampleService "did:cheqd:testnet:abc/resources/r1"
        { Accept := "application/did+json" }).val.DereferencingMetadata.ResolutionError = "" ∧
      (Dereference sampleEnv sampleService "did:cheqd:testnet:abc/resources/r1"
        { Accept := "application/did+json" }).val.DereferencingMetadata.ContentType
        = "application/did+json" ∧
      (Dereference sampleEnv sampleService "did:cheqd:testnet:abc/resources/r1"
        { Accept := "application/did+json" }).val.ContentStream = some "\"schema\"" ∧
      (Dereference sampleEnv sampleService "did:cheqd:testnet:abc/resources/r1"
        { Accept := "application/did+json" }).calls
        = [Call.QueryResource "did:cheqd:testnet:abc" "r1"]) :=
  ⟨⟨by decide, by decide, by decide, by decide, by decide, by decide⟩,
    C9_dereference_resource sampleEnv sampleService "did:cheqd:testnet:abc/resources/r1"
      { Accept := "application/did+json" }
      (by decide) (by decide) (by decide) (by decide) (by decide) (by decide) (by decide)
      (by decide)⟩

/-- The resolution envelope for an error outcome: `createJsonResolution` on an
empty document and empty metadata. -/
theorem createJsonResolution_empty (E : Env) (resolutionMetadata : String)
    (hnull : E.jsonCompact "null" = Except.ok "null")
    (hempty : E.jsonCompact "[]" = Except.ok "[]") :
    createJsonResolution E "" "" resolutionMetadata =
      match E.jsonCompact resolutionMetadata with
      | Except.error err => ("", some err)
      | Except.ok m =>
        (jsonObject [("didResolutionMetadata", m), ("didDocument", "null"),
          ("didDocumentMetadata", "[]")], none) := by
  unfold createJsonResolution jsonMarshalRawStruct
  simp only [marshalRawFields, RawMessage.MarshalJSON, if_true, hnull, hempty]
  cases E.jsonCompact resolutionMetadata <;> rfl

/-- The dereferencing envelope for an error outcome: `createJsonDereferencing`
on a nil content stream and empty metadata. -/
theorem createJsonDereferencing_empty (E : Env) (dereferencingMetadata : String)
    (hnull : E.jsonCompact "null" = Except.ok "null")
    (hempty : E.jsonCompact "[]" = Except.ok "[]") :
    createJsonDereferencing E none "" dereferencingMetadata =
      match E.jsonCompact dereferencingMetadata with
      | Except.error err => ("", some err)
      | Except.ok m =>
        (jsonObject [("contentStream", "null"), ("contentMetadata", "[]"),
          ("dereferencingMetadata", m)], none) := by
  unfold createJsonDereferencing jsonMarshalRawStruct
  simp only [marshalRawFields, RawMessage.MarshalJSON, if_true, hnull, hempty]
  cases E.jsonCompact dereferencingMetadata <;> rfl

/-- C10. Envelope shape on error, given that `json.Marshal` leaves the raw
messages `null` and `[]` as they are. If `Resolve` returns a nil error and a
non-empty `resolutionError`, then (a) whenever `prepareResolutionResult`
returns a nil error its output is the JSON object with exactly the members
`didResolutionMetadata`, `didDocument`, `didDocumentMetadata`, in that order,
where `didDocument` is `null` and `didDocumentMetadata` is `[]`, and (b) it
does return that object with a nil error whenever the marshallers of the
metadata record, of the (zero) document and of the (zero) document metadata
succeed and the marshalled metadata record is valid JSON. The same holds for
`Dereference` and `prepareDereferencingResult` with the members
`contentStream` (`null`), `contentMetadata` (`[]`) and
`dereferencingMetadata`, where only the metadata record is marshalled. -/
theorem C10_error_envelope_shape (E : Env) (rs : RequestService) (id : String)
    (opts : ResolutionOption)
    (hnull : E.jsonCompact "null" = Except.ok "null")
    (hempty : E.jsonCompact "[]" = Except.ok "[]") :
    (((Resolve E rs id opts).err = none ∧
        (Resolve E rs id opts).val.ResolutionMetadata.ResolutionError ≠ "") →
      ((prepareResolutionResult E rs id opts).2 = none →
        ∃ m, (prepareResolutionResult E rs id opts).1 =
          jsonObject [("didResolutionMetadata", m), ("didDocument", "null"),
            ("didDocumentMetadata", "[]")]) ∧
      (∀ m, (E.jsonMarshalMetadata (Resolve E rs id opts).val.ResolutionMetadata).2 = none →
        (E.MarshallDID (Resolve E rs id opts).val.Did).2 = none →
        (E.MarshallProto (Resolve E rs id opts).val.Metadata).2 = none →
        E.jsonCompact (E.jsonMarshalMetadata (Resolve E rs id opts).val.ResolutionMetadata).1
          = Except.ok m →
        prepareResolutionResult E rs id opts =
          (jsonObject [("didResolutionMetadata", m), ("didDocument", "null"),
            ("didDocumentMetadata", "[]")], none))) ∧
    (((Dereference E rs id opts).err = none ∧
        (Dereference E rs id opts).val.DereferencingMetadata.ResolutionError ≠ "") →
      ((prepareDereferencingResult E rs id opts).2 = none →
        ∃ m, (prepareDereferencingResult E rs id opts).1 =
          jsonObject [("contentStream", "null"), ("contentMetadata", "[]"),
            ("dereferencingMetadata", m)]) ∧
      (∀ m,
        (E.jsonMarshalMetadata (Dereference E rs id opts).val.DereferencingMetadata).2 = none →
        E.jsonCompact
          (E.jsonMarshalMetadata (Dereference E rs id opts).val.DereferencingMetadata).1
          = Except.ok m →
        prepareDereferencingResult E rs id opts =
          (jsonObject [("contentStream", "null"), ("contentMetadata", "[]"),
            ("dereferencingMetadata", m)], none))) := by
  constructor
  · rintro ⟨he, hne⟩
    constructor
    · intro hout
      unfold prepareResolutionResult at hout ⊢
      simp only [he, hne, ne_eq, not_false_eq_true, if_true] at hout ⊢
      cases h1 : (E.jsonMarshalMetadata (Resolve E rs id opts).val.ResolutionMetadata).2 with
      | some e1 => simp [h1] at hout
      | none =>
        cases h2 : (E.MarshallDID (Resolve E rs id opts).val.Did).2 with
        | some e2 => simp [h1, h2] at hout
        | none =>
          cases h3 : (E.MarshallProto (Resolve E rs id opts).val.Metadata).2 with
          | some e3 => simp [h1, h2, h3] at hout
          | none =>
            simp only [h1, h2, h3, createJsonResolution_empty E _ hnull hempty] at hout ⊢
            cases h4 : E.jsonCompact
                (E.jsonMarshalMetadata (Resolve E rs id opts).val.ResolutionMetadata).1 with
            | error e4 => simp [h4] at hout
            | ok m => exact ⟨m, rfl⟩
    · intro m h1 h2 h3 h4
      unfold prepareResolutionResult
      simp only [he, hne, ne_eq, not_false_eq_true, if_true, h1, h2, h3,
        createJsonResolution_empty E _ hnull hempty, h4]
  · rintro ⟨he, hne⟩
    constructor
    · intro hout
      unfold prepareDereferencingResult at hout ⊢
      simp only [he, hne, ne_eq, not_false_eq_true, if_true] at hout ⊢
      cases h1 :
          (E.jsonMarshalMetadata (Dereference E rs id opts).val.DereferencingMetadata).2 with
      | some e1 => simp [h1] at hout
      | none =>
        simp only [h1, createJsonDereferencing_empty E _ hnull hempty] at hout ⊢
        cases h4 : E.jsonCompact
            (E.jsonMarshalMetadata (Dereference E rs id opts).val.DereferencingMetadata).1 with
        | error e4 => simp [h4] at hout
        | ok m => exact ⟨m, rfl⟩
    · intro m h1 h4
      unfold prepareDereferencingResult
      simp only [he, hne, ne_eq, not_false_eq_true, if_true, h1,
        createJsonDereferencing_empty E _ hnull hempty, h4]

/-- C10, instantiated: the sample DID on the ledger without documents gives
`notFound` from both engines, and both envelopes have their three members. -/
theorem C10_error_envelope_shape_witness :
    (sampleEnv.jsonCompact "null" = Except.ok "null" ∧
      sampleEnv.jsonCompact "[]" = Except.ok "[]" ∧
      (Resolve sampleEnv emptyService "did:cheqd:testnet:abc"
        { Accept := "application/did+json" }).val.ResolutionMetadata.ResolutionError
        = "notFound" ∧
      (Dereference sampleEnv emptyService "did:cheqd:testnet:abc"
        { Accept := "application/did+json" }).val.DereferencingMetadata.ResolutionError
        = "notFound") ∧
    prepareResolutionResult sampleEnv emptyService "did:cheqd:testnet:abc"
        { Accept := "application/did+json" } =
      ("\x7b\"didResolutionMetadata\":\"notFound\",\"didDocument\":null," ++
        "\"didDocumentMetadata\":[]\x7d", none) ∧
    prepareDereferencingResult sampleEnv emptyService "did:cheqd:testnet:abc"
        { Accept := "application/did+json" } =
      ("\x7b\"contentStream\":null,\"contentMetadata\":[]," ++
        "\"dereferencingMetadata\":\"notFound\"\x7d", none) :=
  have h := C10_error_envelope_shape sampleEnv emptyService "did:cheqd:testnet:abc"
    { Accept := "application/did+json" } rfl rfl
  ⟨⟨rfl, rfl, by decide, by decide⟩,
    (h.1 ⟨by decide, by decide⟩).2 "\"notFound\"" (by decide) (by decide) (by decide) rfl,
    (h.2 ⟨by decide, by decide⟩).2 "\"notFound\"" (by decide) rfl⟩

/-- C11 at the failing input. The ledger document already has the DID v1
schema URI in its context and the accept type is `DIDJSONLD`: `Resolve`
succeeds and returns a context that holds the URI twice, so it has a duplicate
entry, while `DidDoc.AddContext` on the same ledger document returns a context
that holds the URI once and has no duplicate. -/
theorem C11_resolve_context_duplicate :
    (contextLedger.QueryDIDDoc "did:cheqd:testnet:abc").didDoc.Context
      = ["https://www.w3.org/ns/did/v1"] ∧
    isJSONLDFamily sampleEnv.K "application/did+ld+json" = true ∧
    (Resolve sampleEnv contextService "did:cheqd:testnet:abc"
      { Accept := "application/did+ld+json" }).err = none ∧
    (Resolve sampleEnv contextService "did:cheqd:testnet:abc"
      { Accept := "application/did+ld+json" }).val.ResolutionMetadata.ResolutionError = "" ∧
    (Resolve sampleEnv contextService "did:cheqd:testnet:abc"
      { Accept := "application/did+ld+json" }).val.Did.Context
      = ["https://www.w3.org/ns/did/v1", "https://www.w3.org/ns/did/v1"] ∧
    (Resolve sampleEnv contextService "did:cheqd:testnet:abc"
      { Accept := "application/did+ld+json" }).val.Did.Context.count
        sampleEnv.K.DIDSchemaJSONLD = 2 ∧
    ¬ (Resolve sampleEnv contextService "did:cheqd:testnet:abc"
      { Accept := "application/did+ld+json" }).val.Did.Context.Nodup ∧
    ((contextLedger.QueryDIDDoc "did:cheqd:testnet:abc").didDoc.AddContext
      sampleEnv.K.DIDSchemaJSONLD).Context = ["https://www.w3.org/ns/did/v1"] := by
  decide

/-- Splitting never gives an empty list of pieces. -/
theorem splitChars_ne_nil (sep : Char) (l : List Char) : splitChars sep l ≠ [] := by
  cases l with
  | nil => simp [splitChars]
  | cons c cs =>
    unfold splitChars
    split
    · simp
    · split <;> simp

/-- Splitting gives one more piece than there are separators. -/
theorem length_splitChars (sep : Char) (l : List Char) :
    (splitChars sep l).length = l.count sep + 1 := by
  induction l with
  | nil => simp [splitChars]
  | cons c cs ih =>
    unfold splitChars
    by_cases h : c = sep
    · subst h
      simp [ih]
    · have hc : (c == sep) = false := by simpa using h
      rw [if_neg h, List.count_cons, hc]
      cases hs : splitChars sep cs with
      | nil => exact absurd hs (splitChars_ne_nil sep cs)
      | cons piece pieces =>
        rw [hs] at ih
        simpa using ih

/-- A text without the separator is its own single piece. -/
theorem splitChars_of_not_mem (sep : Char) (l : List Char) (h : sep ∉ l) :
    splitChars sep l = [l] := by
  induction l with
  | nil => simp [splitChars]
  | cons c cs ih =>
    have hc : c ≠ sep := fun e => h (by simp [e])
    have hcs : sep ∉ cs := fun e => h (by simp [e])
    unfold splitChars
    rw [if_neg hc, ih hcs]

/-- A text with exactly one separator has two pieces: the text before the
separator and the text after it. -/
theorem splitChars_of_count_one (sep : Char) (l : List Char) (h : l.count sep = 1) :
    splitChars sep l =
      [l.takeWhile (fun c => c != sep), (l.dropWhile (fun c => c != sep)).tail] := by
  induction l with
  | nil => simp at h
  | cons c cs ih =>
    unfold splitChars
    by_cases hc : c = sep
    · subst hc
      have h0 : cs.count c = 0 := by simpa using h
      have hnm : c ∉ cs := List.count_eq_zero.mp h0
      rw [if_pos rfl, splitChars_of_not_mem c cs hnm]
      simp
    · have hb : (c == sep) = false := by simpa using hc
      have h1 : cs.count sep = 1 := by
        rw [List.count_cons, hb] at h
        simpa using h
      have hbn : (c != sep) = true := by simp [hc]
      rw [if_neg hc, ih h1]
      simp only [List.takeWhile, List.dropWhile, hbn]

/-- A text that contains the separator is the text before its first
occurrence, the separator, and the text after it. -/
theorem takeWhile_sep_dropWhile (sep : Char) (l : List Char) (h : sep ∈ l) :
    l = l.takeWhile (fun c => c != sep) ++ sep :: (l.dropWhile (fun c => c != sep)).tail := by
  induction l with
  | nil => simp at h
  | cons c cs ih =>
    by_cases hc : c = sep
    · subst hc
      simp
    · have hb : (c == sep) = false := by simpa using hc
      have hm : sep ∈ cs := by
        rcases List.mem_cons.mp h with e | e
        · exact absurd e.symm hc
        · exact e
      have := ih hm
      simp only [List.takeWhile, List.dropWhile, bne, hb, Bool.not_false, List.cons_append]
      simp only [bne] at this
      rw [← this]

/-- C13. Fragment split. For every raw identifier `s` and every request
service value, `SpecificPrepare` returns a nil error; `strings.Split(s, "#")`
has one more piece than `s` has `#` characters; the receiver after the call
has `Fragment` replaced by the text after the `#` when `s` contains exactly
one `#`, and is unchanged otherwise (so `Fragment` stays empty on a fresh
request); and when `s` contains exactly one `#`, `s` is the text before it,
the `#`, and that fragment. -/
theorem C13_fragment_split (dd : FragmentDIDDocRequestService) (s : String) :
    (SpecificPrepare dd s).2 = none ∧
    (stringsSplit s '#').length = s.toList.count '#' + 1 ∧
    (SpecificPrepare dd s).1 =
      (if s.toList.count '#' = 1 then
        { dd with Fragment := String.mk ((s.toList.dropWhile (fun c => c != '#')).tail) }
      else dd) ∧
    (s.toList.count '#' = 1 →
      s.toList = s.toList.takeWhile (fun c => c != '#') ++
        '#' :: (s.toList.dropWhile (fun c => c != '#')).tail) ∧
    (s.toList.count '#' ≠ 1 →
      (SpecificPrepare ({} : FragmentDIDDocRequestService) s).1.Fragment = "") := by
  have hlen : (stringsSplit s '#').length = s.toList.count '#' + 1 := by
    simp [stringsSplit, length_splitChars]
  have hstate : (SpecificPrepare dd s).1 =
      (if s.toList.count '#' = 1 then
        { dd with Fragment := String.mk ((s.toList.dropWhile (fun c => c != '#')).tail) }
      else dd) ∧ (SpecificPrepare dd s).2 = none := by
    by_cases h : s.toList.count '#' = 1
    · rw [if_pos h]
      unfold SpecificPrepare stringsSplit
      rw [splitChars_of_count_one '#' s.toList h]
      simp
    · rw [if_neg h]
      have hne : (stringsSplit s '#').length ≠ 2 := by
        rw [hlen]
        intro e
        exact h (by omega)
      unfold SpecificPrepare
      generalize stringsSplit s '#' = pieces at hne
      match pieces, hne with
      | [], _ => simp
      | [_], _ => simp
      | [_, _], hne => simp at hne
      | _ :: _ :: _ :: _, _ => simp
  refine ⟨hstate.2, hlen, hstate.1, ?_, ?_⟩
  · intro h
    have hm : '#' ∈ s.toList := by
      apply List.count_pos_iff.mp
      omega
    exact takeWhile_sep_dropWhile '#' s.toList hm
  · intro h
    have hfresh : (SpecificPrepare ({} : FragmentDIDDocRequestService) s).1 =
        ({} : FragmentDIDDocRequestService) := by
      by_cases h1 : s.toList.count '#' = 1
      · exact absurd h1 h
      · have hne : (stringsSplit s '#').length ≠ 2 := by
          rw [hlen]
          intro e
          exact h (by omega)
        unfold SpecificPrepare
        generalize stringsSplit s '#' = pieces at hne
        match pieces, hne with
        | [], _ => simp
        | [_], _ => simp
        | [_, _], hne => simp at hne
        | _ :: _ :: _ :: _, _ => simp
    rw [hfresh]

/-- When the first loop of `NewDidDoc` completes, its result lists, in order,
the verification method built from each ledger verification method. -/
theorem newVerificationMethods_forall2 (unmarshal : MaterialDecoder) :
    ∀ (l : List (Option ProtoVerificationMethod)) (vs : List VerificationMethod),
      newVerificationMethods unmarshal l = Except.ok vs →
      List.Forall₂ (fun p r => NewVerificationMethod unmarshal p = Except.ok r) l vs := by
  intro l
  induction l with
  | nil =>
    intro vs h
    simp only [newVerificationMethods, Except.ok.injEq] at h
    subst h
    exact List.Forall₂.nil
  | cons p rest ih =>
    intro vs h
    unfold newVerificationMethods at h
    cases h1 : NewVerificationMethod unmarshal p with
    | error e => simp [h1] at h
    | ok v =>
      cases h2 : newVerificationMethods unmarshal rest with
      | error e => simp [h1, h2] at h
      | ok vs2 =>
        simp only [h1, h2, Except.ok.injEq] at h
        subst h
        exact List.Forall₂.cons h1 (ih vs2 h2)

/-- Every element of the left list of a pairwise-related pair of lists is
related to some element. -/
theorem forall2_exists_of_mem {α β : Type} {R : α → β → Prop} {l : List α} {vs : List β}
    (h : List.Forall₂ R l vs) : ∀ p ∈ l, ∃ r, R p r := by
  induction h with
  | nil =>
    intro p hp
    simp at hp
  | cons hab _ ih =>
    intro p hp
    rcases List.mem_cons.mp hp with e | e
    · subst e
      exact ⟨_, hab⟩
    · exact ih p e

/-- When `NewDidDoc` returns, its verification methods are the result of its
first loop. -/
theorem NewDidDoc_verificationMethods (unmarshal : MaterialDecoder) (doc : ProtoDidDoc)
    (d : DidDoc) (h : NewDidDoc unmarshal doc = Except.ok d) :
    newVerificationMethods unmarshal doc.VerificationMethod = Except.ok d.VerificationMethod := by
  unfold NewDidDoc at h
  cases h1 : newVerificationMethods unmarshal doc.VerificationMethod with
  | error e => simp [h1] at h
  | ok vs =>
    cases h2 : newServices doc.Service with
    | error e => simp [h1, h2] at h
    | ok ss =>
      simp only [h1, h2, Except.ok.injEq] at h
      subst h
      rfl

/-- C14 as stated fails: key material that deserializes to an object naming
neither field gives a verification method with no key-material field
populated, and key material naming both fields gives one with both
populated; in both cases construction succeeds. -/
theorem C14_key_material_not_exactly_one :
    (NewVerificationMethod sampleUnmarshal
        (some { Id := "did:cheqd:testnet:abc#key-1", Type_ := "Ed25519VerificationKey2020",
                Controller := "did:cheqd:testnet:abc", VerificationMaterial := "\x7b\x7d" })
      = Except.ok { Id := "did:cheqd:testnet:abc#key-1", Type_ := "Ed25519VerificationKey2020",
                    Controller := "did:cheqd:testnet:abc" } ∧
      ¬ exactlyOneKeyMaterial
        { Id := "did:cheqd:testnet:abc#key-1", Type_ := "Ed25519VerificationKey2020",
          Controller := "did:cheqd:testnet:abc" }) ∧
    (NewVerificationMethod sampleUnmarshal
        (some { Id := "did:cheqd:testnet:abc#key-1", Type_ := "Ed25519VerificationKey2020",
                Controller := "did:cheqd:testnet:abc",
                VerificationMaterial :=
                  "\x7b\"publicKeyJwk\":\x7b\"kty\":\"OKP\"\x7d,\"publicKeyMultibase\":\"z6Mk\"\x7d" })
      = Except.ok { Id := "did:cheqd:testnet:abc#key-1", Type_ := "Ed25519VerificationKey2020",
                    Controller := "did:cheqd:testnet:abc",
                    PublicKeyJwk := [("kty", "OKP")], PublicKeyMultibase := "z6Mk" } ∧
      ¬ exactlyOneKeyMaterial
        { Id := "did:cheqd:testnet:abc#key-1", Type_ := "Ed25519VerificationKey2020",
          Controller := "did:cheqd:testnet:abc",
          PublicKeyJwk := [("kty", "OKP")], PublicKeyMultibase := "z6Mk" }) :=
  ⟨⟨rfl, by decide⟩, ⟨rfl, by decide⟩⟩

/-- C14, amended. For every key-material decoder: (1) when the key material
of a ledger verification method does not deserialize, `NewVerificationMethod`
panics with the decoder's error; (2) whenever construction succeeds, the
result copies id, type and controller from the input and its two key-material
fields are those of the deserialized key material, so exactly one of them is
populated iff the key material populates exactly one; (3) whenever `NewDidDoc`
returns a document, it has as many verification methods as the ledger
document, and they are, in order, the results of `NewVerificationMethod`;
(4) if construction fails for any verification method of the ledger document,
`NewDidDoc` fails. -/
theorem C14_new_verification_method (unmarshal : MaterialDecoder) :
    (∀ (p : ProtoVerificationMethod) (e : GoError),
      unmarshal p.VerificationMaterial = Except.error e →
      NewVerificationMethod unmarshal (some p) = Except.error e) ∧
    (∀ (p : ProtoVerificationMethod) (r : VerificationMethod),
      NewVerificationMethod unmarshal (some p) = Except.ok r →
      r.Id = p.Id ∧ r.Type_ = p.Type_ ∧ r.Controller = p.Controller ∧
      ∃ m : VerificationMaterial, unmarshal p.VerificationMaterial = Except.ok (some m) ∧
        r.PublicKeyJwk = m.PublicKeyJwk ∧ r.PublicKeyMultibase = m.PublicKeyMultibase ∧
        (exactlyOneKeyMaterial r ↔
          ((m.PublicKeyJwk ≠ [] ∧ m.PublicKeyMultibase = "") ∨
            (m.PublicKeyJwk = [] ∧ m.PublicKeyMultibase ≠ "")))) ∧
    (∀ (doc : ProtoDidDoc) (d : DidDoc), NewDidDoc unmarshal doc = Except.ok d →
      d.VerificationMethod.length = doc.VerificationMethod.length ∧
      List.Forall₂ (fun p r => NewVerificationMethod unmarshal p = Except.ok r)
        doc.VerificationMethod d.VerificationMethod) ∧
    (∀ (doc : ProtoDidDoc),
      (∃ p ∈ doc.VerificationMethod, ∃ e, NewVerificationMethod unmarshal p = Except.error e) →
      ∃ e, NewDidDoc unmarshal doc = Except.error e) := by
  have h3 : ∀ (doc : ProtoDidDoc) (d : DidDoc), NewDidDoc unmarshal doc = Except.ok d →
      List.Forall₂ (fun p r => NewVerificationMethod unmarshal p = Except.ok r)
        doc.VerificationMethod d.VerificationMethod := fun doc d h =>
    newVerificationMethods_forall2 unmarshal _ _ (NewDidDoc_verificationMethods unmarshal doc d h)
  refine ⟨?_, ?_, ?_, ?_⟩
  · intro p e h
    simp [NewVerificationMethod, h]
  · intro p r h
    unfold NewVerificationMethod at h
    cases hu : unmarshal p.VerificationMaterial with
    | error e => simp [hu] at h
    | ok om =>
      cases om with
      | none => simp [hu] at h
      | some m =>
        simp only [hu, Except.ok.injEq] at h
        subst h
        exact ⟨rfl, rfl, rfl, m, rfl, rfl, rfl, Iff.rfl⟩
  · intro doc d h
    exact ⟨(h3 doc d h).length_eq.symm, h3 doc d h⟩
  · rintro doc ⟨p, hp, e, he⟩
    cases h : NewDidDoc unmarshal doc with
    | error e2 => exact ⟨e2, rfl⟩
    | ok d =>
      obtain ⟨r, hr⟩ := forall2_exists_of_mem (h3 doc d h) p hp
      rw [he] at hr
      cases hr

/-- C14 amended, instantiated: the sample ledger document, with two
verification methods, is converted into a document with those two, in order;
key material that is not JSON makes `NewVerificationMethod` panic. -/
theorem C14_new_verification_method_witness :
    NewVerificationMethod sampleUnmarshal
        (some { Id := "did:cheqd:testnet:abc#key-9", VerificationMaterial := "z6Mk" })
      = Except.error "invalid character \x27z\x27 looking for beginning of value" ∧
    (∃ d, NewDidDoc sampleUnmarshal sampleProtoDidDoc = Except.ok d ∧
      d.VerificationMethod.length = sampleProtoDidDoc.VerificationMethod.length ∧
      List.Forall₂ (fun p r => NewVerificationMethod sampleUnmarshal p = Except.ok r)
        sampleProtoDidDoc.VerificationMethod d.VerificationMethod ∧
      d.VerificationMethod.map (fun vm => vm.Id)
        = ["did:cheqd:testnet:abc#key-1", "did:cheqd:testnet:abc#key-2"]) :=
  have h := C14_new_verification_method sampleUnmarshal
  ⟨h.1 { Id := "did:cheqd:testnet:abc#key-9", VerificationMaterial := "z6Mk" }
      "invalid character \x27z\x27 looking for beginning of value" rfl,
    _, rfl, (h.2.2.1 sampleProtoDidDoc _ rfl).1, (h.2.2.1 sampleProtoDidDoc _ rfl).2,
    by decide⟩

/-- Whatever `Resolve` returns, a hard error comes with the zero value, and
the calls it made are ledger calls: none, the namespace query alone, or the
namespace query followed by the document query. -/
theorem Resolve_error_val_and_calls (E : Env) (rs : RequestService) (did : String)
    (opts : ResolutionOption) :
    ((Resolve E rs did opts).err ≠ none → (Resolve E rs did opts).val = {}) ∧
    ((Resolve E rs did opts).calls = [] ∨
      (Resolve E rs did opts).calls = [Call.GetNamespaces] ∨
      (Resolve E rs did opts).calls = [Call.GetNamespaces, Call.QueryDIDDoc did]) := by
  by_cases hm : (E.TrySplitDID did).method = rs.didMethod
  swap
  · rw [Resolve_method_mismatch E rs did opts hm]
    simp
  cases hv : E.IsValidDID did "" rs.ledgerService.GetNamespaces
  · rw [Resolve_invalid E rs did opts hm hv]
    simp
  cases hq : (rs.ledgerService.QueryDIDDoc did).err with
  | some e =>
    rw [Resolve_ledger_error E rs did opts e hm hv hq]
    simp
  | none =>
    cases hf : (rs.ledgerService.QueryDIDDoc did).isFound
    · rw [Resolve_not_found E rs did opts hm hv hq hf]
      simp
    cases hct : isJSONLDFamily E.K opts.Accept
    · cases hpl : isPlainJSONOrHTML E.K opts.Accept
      · rw [Resolve_unsupported E rs did opts hm hv hq hf hct hpl]
        simp
      · rw [Resolve_plain E rs did opts hm hv hq hf hct hpl]
        simp
    · rw [Resolve_jsonld E rs did opts hm hv hq hf hct]
      simp

/-- C15. For every valid DID URL with empty path and query, whatever its
fragment, if `Resolve` on the decomposed DID returns resolution metadata with
a non-empty `resolutionError`, then `Dereference` returns a nil error and a
result whose dereferencing metadata is that resolution metadata (same error
code, content type, retrieval time and DID properties) and whose content
stream and content metadata are empty; the calls made are the call to
`Resolve` and the ledger calls of `Resolve`, and no fragment lookup. -/
theorem C15_dereference_propagates_resolution_error (E : Env) (rs : RequestService)
    (didUrl : String) (opts : DereferencingOption)
    (hu : (E.TrySplitDIDUrl didUrl).err = none)
    (hv : E.IsValidDIDUrl didUrl "" [] = true)
    (hq : (E.TrySplitDIDUrl didUrl).query = "")
    (hp : (E.TrySplitDIDUrl didUrl).path = "")
    (hre : (Resolve E rs (E.TrySplitDIDUrl didUrl).did opts).val.ResolutionMetadata.ResolutionError
      ≠ "") :
    (Dereference E rs didUrl opts).err = none ∧
    (Dereference E rs didUrl opts).val.DereferencingMetadata
      = (Resolve E rs (E.TrySplitDIDUrl didUrl).did opts).val.ResolutionMetadata ∧
    (Dereference E rs didUrl opts).val.ContentStream = none ∧
    (Dereference E rs didUrl opts).val.Metadata = {} ∧
    (Dereference E rs didUrl opts).calls
      = Call.Resolve (E.TrySplitDIDUrl didUrl).did ::
          (Resolve E rs (E.TrySplitDIDUrl didUrl).did opts).calls ∧
    (∀ fragmentId, Call.GetDIDFragment fragmentId ∉ (Dereference E rs didUrl opts).calls) := by
  have hrc := Resolve_error_val_and_calls E rs (E.TrySplitDIDUrl didUrl).did opts
  have hnone : (Resolve E rs (E.TrySplitDIDUrl didUrl).did opts).err = none := by
    by_contra hne
    have hz := hrc.1 hne
    rw [hz] at hre
    exact hre rfl
  have hs : dereferenceSecondary E rs (E.TrySplitDIDUrl didUrl).did
      (E.TrySplitDIDUrl didUrl).fragmentId didUrl opts =
      { val := { DereferencingMetadata :=
                  (Resolve E rs (E.TrySplitDIDUrl didUrl).did opts).val.ResolutionMetadata }
        err := none
        calls := Call.Resolve (E.TrySplitDIDUrl didUrl).did ::
          (Resolve E rs (E.TrySplitDIDUrl didUrl).did opts).calls } := by
    unfold dereferenceSecondary
    simp [hnone, hre]
  rw [Dereference_secondary E rs didUrl opts hu hv hq hp, hs]
  refine ⟨rfl, rfl, rfl, rfl, rfl, ?_⟩
  intro fragmentId
  rcases hrc.2 with h | h | h <;> simp [h]

/-- C15, instantiated: the fragment URL `did:cheqd:testnet:abc#key-1` on the
ledger without documents; `Resolve` gives `notFound` and `Dereference`
returns the same metadata. -/
theorem C15_dereference_propagates_resolution_error_witness :
    ((sampleEnv.TrySplitDIDUrl "did:cheqd:testnet:abc#key-1").err = none ∧
      sampleEnv.IsValidDIDUrl "did:cheqd:testnet:abc#key-1" "" [] = true ∧
      (sampleEnv.TrySplitDIDUrl "did:cheqd:testnet:abc#key-1").query = "" ∧
      (sampleEnv.TrySplitDIDUrl "did:cheqd:testnet:abc#key-1").path = "" ∧
      (sampleEnv.TrySplitDIDUrl "did:cheqd:testnet:abc#key-1").did = "did:cheqd:testnet:abc" ∧
      (Resolve sampleEnv emptyService "did:cheqd:testnet:abc"
        { Accept := "application/did+json" }).val.ResolutionMetadata.ResolutionError
        = "notFound") ∧
    ((Dereference sampleEnv emptyService "did:cheqd:testnet:abc#key-1"
        { Accept := "application/did+json" }).err = none ∧
      (Dereference sampleEnv emptyService "did:cheqd:testnet:abc#key-1"
        { Accept := "application/did+json" }).val.DereferencingMetadata
        = (Resolve sampleEnv emptyService "did:cheqd:testnet:abc"
            { Accept := "application/did+json" }).val.ResolutionMetadata ∧
      (Dereference sampleEnv emptyService "did:cheqd:testnet:abc#key-1"
        { Accept := "application/did+json" }).val.ContentStream = none ∧
      (Dereference sampleEnv emptyService "did:cheqd:testnet:abc#key-1"
        { Accept := "application/did+json" }).val.Metadata = {} ∧
      (Dereference sampleEnv emptyService "did:cheqd:testnet:abc#key-1"
        { Accept := "application/did+json" }).calls
        = [Call.Resolve "did:cheqd:testnet:abc", Call.GetNamespaces,
            Call.QueryDIDDoc "did:cheqd:testnet:abc"]) :=
  have h := C15_dereference_propagates_resolution_error sampleEnv emptyService
    "did:cheqd:testnet:abc#key-1" { Accept := "application/did+json" }
    (by decide) (by decide) (by decide) (by decide) (by decide)
  ⟨⟨by decide, by decide, by decide, by decide, by decide, by decide⟩,
    h.1, h.2.1, h.2.2.1, h.2.2.2.1, h.2.2.2.2.1⟩

end CheqdResolver
